import Mathlib

/-!
# Queue extractor: identifier validator, structured-data search, extraction pipeline

A shallow embedding of `src/script.js`.

* A JavaScript string is its sequence of UTF-16 code units; `length`, `includes` and the
  regular expressions of the script (none has the `u` flag) all work on code units.
* A JavaScript value is a primitive or a reference into a heap of objects; an object is the
  list of its own enumerable properties in enumeration order (what `Object.entries` walks).
  Prototype chains, getters and proxies are outside the model.
* `checkForVideoId` threads its `visited` set explicitly; the recursion is driven by a depth
  budget, and `checkForVideoId_terminates` shows that the budget used at top level always suffices.
-/

namespace QueueExtractor

/-! ## Strings -/

/-- One UTF-16 code unit. -/
abbrev CodeUnit := Nat

/-- A JavaScript string: the list of its UTF-16 code units. -/
abbrev JSString := List CodeUnit

/-- The JavaScript string written by an ASCII/BMP literal. -/
def lit (s : String) : JSString := s.toList.map Char.toNat

/-- The method `String.prototype.includes`: `needle` occurs in `s` as a contiguous block. -/
def includes : JSString → JSString → Bool
  | [], needle => needle.isPrefixOf []
  | c :: cs, needle => needle.isPrefixOf (c :: cs) || includes cs needle

/-- The character class `[a-zA-Z0-9_-]`. -/
def isIdChar (c : CodeUnit) : Bool :=
  (97 ≤ c && c ≤ 122) || (65 ≤ c && c ≤ 90) || (48 ≤ c && c ≤ 57) || c == 95 || c == 45

/-- Line terminators, the code units the regular-expression atom `.` does not match. -/
def isLineTerminator (c : CodeUnit) : Bool :=
  c == 10 || c == 13 || c == 8232 || c == 8233

/-- The test `/^[a-zA-Z0-9_-]{11}$/.test(str)`. -/
def matchesIdPattern (str : JSString) : Bool :=
  str.length == 11 && str.all isIdChar

/-- The test `/^(.)\1{10}$/.test(str)`: one non-line-terminator unit, then ten copies of it. -/
def matchesRepeated (str : JSString) : Bool :=
  match str with
  | [] => false
  | c :: rest => !isLineTerminator c && rest.length == 10 && rest.all (fun d => d == c)

/-! ## Values and heap -/

/-- JavaScript values. Numbers are only ever inspected through `typeof` and truthiness. -/
inductive JSVal where
  | undefined
  | null
  | bool (b : Bool)
  | number (n : Int)
  | nan
  | string (s : JSString)
  | function (ref : Nat)
  | object (ref : Nat)
  deriving DecidableEq, Repr

/-- An object: its own enumerable properties, in enumeration order. -/
abbrev JSObject := List (JSString × JSVal)

/-- The heap: object number `r` is the `r`-th entry. -/
abbrev Heap := List JSObject

/-- Truthiness (`ToBoolean`). -/
def truthy : JSVal → Bool
  | .undefined => false
  | .null => false
  | .bool b => b
  | .number n => n != 0
  | .nan => false
  | .string s => !s.isEmpty
  | .function _ => true
  | .object _ => true

/-- The expression `a || b`. -/
def jsOr (a b : JSVal) : JSVal := if truthy a then a else b

/-- The test `typeof v === 'object' && v !== null`. -/
def isObject : JSVal → Bool
  | .object _ => true
  | _ => false

/-- The properties of object `r` (`Object.entries`); a reference outside the heap has none. -/
def entries (h : Heap) (r : Nat) : JSObject := (h.get? r).getD []

/-- Property read `v.key` on a value that is not `undefined`/`null`: the stored value on an
object that has the key, `undefined` on an object without it, on primitives and on functions
(the keys the script reads, `videoId`, `watchEndpoint`, `navigationEndpoint`, exist on no
primitive; functions are taken to carry none of them). -/
def getProp (h : Heap) (v : JSVal) (key : JSString) : JSVal :=
  match v with
  | .object r => ((entries h r).lookup key).getD .undefined
  | _ => .undefined

/-! ## The validator (`script.js` lines 6-25) -/

/-- The denylist `falsePositives`. -/
def falsePositives : List JSString :=
  [lit "style-scope", lit "yt-spec-icon", lit "css-build", lit "dom-if", lit "template",
   lit "polymer"]

/-- The function `isValidVideoId`. -/
def isValidVideoId (v : JSVal) : Bool :=
  match v with
  | .string str =>
    if str.isEmpty || str.length != 11 then false
    else if falsePositives.any (fun fp => includes str fp) then false
    else matchesIdPattern str && !matchesRepeated str && !includes str (lit "-scope") &&
      !includes str (lit "style")
  | _ => false

/-! ## The structured-data search (`script.js` lines 36-73) -/

/-- The loop `for (const [key, value] of Object.entries(obj))` of `checkForVideoId`, with the
recursive call passed in as `recurse`; the visited set is handed from one call to the next. -/
def searchEntries (recurse : JSVal → List Nat → Option (JSVal × List Nat)) :
    JSObject → List Nat → Option (JSVal × List Nat)
  | [], visited => some (.null, visited)
  | (_, value) :: rest, visited =>
    if isObject value then
      match recurse value visited with
      | none => none
      | some (result, visited') =>
        if truthy result then some (result, visited')
        else searchEntries recurse rest visited'
    else searchEntries recurse rest visited

/-- The function `checkForVideoId` with an explicit visited set (the list of objects entered so
far, most recent first) and a budget for the nesting depth of calls; `none` means the budget
ran out. -/
def checkForVideoIdAux (h : Heap) : Nat → JSVal → List Nat → Option (JSVal × List Nat)
  | 0, _, _ => none
  | fuel + 1, obj, visited =>
    match obj with
    | .object r =>
      if visited.contains r then some (.null, visited)
      else
        let visited := r :: visited
        let videoId := getProp h obj (lit "videoId")
        if truthy videoId && isValidVideoId videoId then some (videoId, visited)
        else
          let watchEndpoint := getProp h obj (lit "watchEndpoint")
          if truthy watchEndpoint && truthy (getProp h watchEndpoint (lit "videoId")) &&
              isValidVideoId (getProp h watchEndpoint (lit "videoId")) then
            some (getProp h watchEndpoint (lit "videoId"), visited)
          else
            let navigationEndpoint := getProp h obj (lit "navigationEndpoint")
            let loop := searchEntries (checkForVideoIdAux h fuel) (entries h r) visited
            if truthy navigationEndpoint then
              if truthy (getProp h navigationEndpoint (lit "videoId")) &&
                  isValidVideoId (getProp h navigationEndpoint (lit "videoId")) then
                some (getProp h navigationEndpoint (lit "videoId"), visited)
              else
                let inner := getProp h navigationEndpoint (lit "watchEndpoint")
                if truthy inner && truthy (getProp h inner (lit "videoId")) &&
                    isValidVideoId (getProp h inner (lit "videoId")) then
                  some (getProp h inner (lit "videoId"), visited)
                else loop
            else loop
    | _ => some (.null, visited)

/-- A run of `checkForVideoId` from a given visited set, with a depth budget of one more than
the number of objects in the heap. -/
def checkForVideoIdRun (h : Heap) (obj : JSVal) (visited : List Nat) :
    Option (JSVal × List Nat) :=
  checkForVideoIdAux h (h.length + 1) obj visited

/-- The call `checkForVideoId(obj, path)`: the visited set defaults to a fresh empty set. The
`none` branch is never taken (`checkForVideoIdAux_total`). -/
def checkForVideoId (h : Heap) (obj : JSVal) : JSVal :=
  match checkForVideoIdRun h obj [] with
  | some (result, _) => result
  | none => .null

/-- The number of objects of the heap not yet in the visited set. -/
def unvisitedCount (h : Heap) (visited : List Nat) : Nat :=
  ((Finset.range h.length).filter (fun r => r ∉ visited)).card

/-- What every run of the search guarantees about its result and its visited set. -/
def SearchSound (f : JSVal → List Nat → Option (JSVal × List Nat)) : Prop :=
  ∀ v visited result visited', f v visited = some (result, visited') →
    (result = .null ∨ isValidVideoId result = true) ∧
      (∃ entered, visited' = entered ++ visited) ∧ (visited.Nodup → visited'.Nodup)

/-! ### The search as the specification words it -/

/-- Spec wording: the read `v.k1.k2...`, an absent step giving `undefined`. -/
def readPath (h : Heap) (v : JSVal) : List JSString → JSVal
  | [] => v
  | key :: keys => readPath h (getProp h v key) keys

/-- Spec wording, priorities (a)-(d): `videoId`, `watchEndpoint.videoId`,
`navigationEndpoint.videoId`, `navigationEndpoint.watchEndpoint.videoId`, in this order. -/
def directCandidates (h : Heap) (obj : JSVal) : List JSVal :=
  [readPath h obj [lit "videoId"],
   readPath h obj [lit "watchEndpoint", lit "videoId"],
   readPath h obj [lit "navigationEndpoint", lit "videoId"],
   readPath h obj [lit "navigationEndpoint", lit "watchEndpoint", lit "videoId"]]

/-- Spec wording, priority (e): the first non-null result of recursing into the given values
in order, and null if there is none. -/
def firstNonNull (recurse : JSVal → List Nat → Option (JSVal × List Nat)) :
    List JSVal → List Nat → Option (JSVal × List Nat)
  | [], visited => some (.null, visited)
  | value :: rest, visited =>
    match recurse value visited with
    | none => none
    | some (result, visited') =>
      if result = .null then firstNonNull recurse rest visited' else some (result, visited')

/-- Spec wording: the result on an object the search enters is the first valid one of the
direct candidates (a)-(d), otherwise (e) over the object-valued fields in enumeration order. -/
def priorityOrder (h : Heap) (recurse : JSVal → List Nat → Option (JSVal × List Nat))
    (r : Nat) (visited : List Nat) : Option (JSVal × List Nat) :=
  match (directCandidates h (.object r)).find? isValidVideoId with
  | some videoId => some (videoId, r :: visited)
  | none =>
    firstNonNull recurse (((entries h r).map Prod.snd).filter isObject) (r :: visited)

/-! ## The page -/

/-- A descendant element of a queue item, as far as the script looks at it. -/
structure Element where
  /-- The local name, which type selectors match. -/
  tag : JSString
  /-- The class list, which class selectors match. -/
  classes : List JSString
  /-- The attributes, name and value. -/
  attrs : List (JSString × JSString)
  /-- The property `innerText`. -/
  innerText : JSString
  /-- The property `__data`. -/
  data : JSVal
  /-- The property `__dataHost`. -/
  dataHost : JSVal
  deriving DecidableEq, Repr

/-- A `ytmusic-player-queue-item` element: its own attached data and its descendants in
document order (the list `item.querySelectorAll('*')`). -/
structure QueueItem where
  /-- The property `__data`. -/
  data : JSVal
  /-- The property `__dataHost`. -/
  dataHost : JSVal
  /-- All descendant elements, in document order. -/
  descendants : List Element
  deriving DecidableEq, Repr

/-- One entry of `links`. -/
structure ExtractionResult where
  title : JSString
  artist : JSString
  url : JSString
  videoId : JSVal
  deriving DecidableEq, Repr

/-- The method `getAttribute`: the value, or null when the attribute is absent. -/
def getAttribute (el : Element) (name : JSString) : JSVal :=
  match el.attrs.lookup name with
  | some value => .string value
  | none => .null

/-- The test `el.hasAttribute(name)`, as used by attribute selectors. -/
def hasAttribute (el : Element) (name : JSString) : Bool :=
  (el.attrs.lookup name).isSome

/-- The selector `.song-title` or `.byline`: first descendant with the class. -/
def queryClass (item : QueueItem) (cls : JSString) : Option Element :=
  item.descendants.find? (fun el => el.classes.contains cls)

/-- The selector `ytmusic-play-button-renderer`: first descendant with that tag. -/
def queryPlayButton (item : QueueItem) : Option Element :=
  item.descendants.find? (fun el => el.tag == lit "ytmusic-play-button-renderer")

/-- The selector `a[href*="watch?v="], a[href*="/watch/"]`. -/
def isWatchAnchor (el : Element) : Bool :=
  el.tag == lit "a" &&
    match el.attrs.lookup (lit "href") with
    | some href => includes href (lit "watch?v=") || includes href (lit "/watch/")
    | none => false

/-- The selector `[data-video-id], [data-videoid], [videoid]`. -/
def hasIdAttribute (el : Element) : Bool :=
  hasAttribute el (lit "data-video-id") || hasAttribute el (lit "data-videoid") ||
    hasAttribute el (lit "videoid")

/-- White space and line terminators, the code units `trim` strips. -/
def isTrimUnit (c : CodeUnit) : Bool :=
  c == 9 || c == 10 || c == 11 || c == 12 || c == 13 || c == 32 || c == 160 || c == 5760 ||
    (8192 ≤ c && c ≤ 8202) || c == 8232 || c == 8233 || c == 8239 || c == 8287 ||
    c == 12288 || c == 65279

/-- The method `String.prototype.trim`. -/
def trim (s : JSString) : JSString :=
  ((s.dropWhile isTrimUnit).reverse.dropWhile isTrimUnit).reverse

/-- The expression `el?.innerText.trim() || placeholder`. -/
def textOr (el : Option Element) (placeholder : JSString) : JSString :=
  match el with
  | none => placeholder
  | some e => if (trim e.innerText).isEmpty then placeholder else trim e.innerText

/-! ## The regular expression of strategy 4 -/

/-- The pattern `[?&/]v=([a-zA-Z0-9_-]{11})` tried at the start of `s`: the captured group. -/
def matchWatchAt (s : JSString) : Option JSString :=
  match s with
  | sep :: v :: eq :: rest =>
    if (sep == 63 || sep == 38 || sep == 47) && v == 118 && eq == 61 &&
        (rest.take 11).length == 11 && (rest.take 11).all isIdChar then
      some (rest.take 11)
    else none
  | _ => none

/-- The call `href.match(/[?&/]v=([a-zA-Z0-9_-]{11})/)`: group 1 of the leftmost match. -/
def hrefMatch : JSString → Option JSString
  | [] => none
  | c :: cs =>
    match matchWatchAt (c :: cs) with
    | some token => some token
    | none => hrefMatch cs

/-! ## The five strategies (`script.js` lines 75-136)

Each strategy is the block of the script under that comment, as a function from the value of
the variable `videoId` before the block to its value after it. -/

/-- Strategy 1: the item's own data, `item.__data || item.__dataHost`. -/
def strategy1 (h : Heap) (item : QueueItem) (videoId : JSVal) : JSVal :=
  let mainData := jsOr item.data item.dataHost
  if truthy mainData then checkForVideoId h mainData else videoId

/-- Strategy 2: the play button's data. -/
def strategy2 (h : Heap) (item : QueueItem) (videoId : JSVal) : JSVal :=
  if !truthy videoId then
    match queryPlayButton item with
    | some playButton =>
      let playButtonData := jsOr playButton.data playButton.dataHost
      if truthy playButtonData then checkForVideoId h playButtonData else videoId
    | none => videoId
  else videoId

/-- The loop of strategy 3, `for (let i = 0; i < allElements.length && !videoId; i++)`. -/
def strategy3Loop (h : Heap) : List Element → JSVal → JSVal
  | [], videoId => videoId
  | el :: rest, videoId =>
    if !truthy videoId then
      let elData := jsOr el.data el.dataHost
      strategy3Loop h rest (if truthy elData then checkForVideoId h elData else videoId)
    else videoId

/-- Strategy 3: every descendant's data, in document order. -/
def strategy3 (h : Heap) (item : QueueItem) (videoId : JSVal) : JSVal :=
  if !truthy videoId then strategy3Loop h item.descendants videoId else videoId

/-- The loop of strategy 4 over the selected anchors. The selector guarantees the `href`
attribute, so the `none` branch of the attribute read is never taken. -/
def strategy4Loop : List Element → JSVal → JSVal
  | [], videoId => videoId
  | link :: rest, videoId =>
    match link.attrs.lookup (lit "href") with
    | some href =>
      match hrefMatch href with
      | some token =>
        if isValidVideoId (.string token) then .string token
        else strategy4Loop rest videoId
      | none => strategy4Loop rest videoId
    | none => strategy4Loop rest videoId

/-- Strategy 4: anchors with a watch link. -/
def strategy4 (item : QueueItem) (videoId : JSVal) : JSVal :=
  if !truthy videoId then strategy4Loop (item.descendants.filter isWatchAnchor) videoId
  else videoId

/-- The loop of strategy 5 over the selected elements. -/
def strategy5Loop : List Element → JSVal → JSVal
  | [], videoId => videoId
  | el :: rest, videoId =>
    let vid := jsOr (jsOr (getAttribute el (lit "data-video-id"))
      (getAttribute el (lit "data-videoid"))) (getAttribute el (lit "videoid"))
    if truthy vid && isValidVideoId vid then vid else strategy5Loop rest videoId

/-- Strategy 5: identifier attributes. -/
def strategy5 (item : QueueItem) (videoId : JSVal) : JSVal :=
  if !truthy videoId then strategy5Loop (item.descendants.filter hasIdAttribute) videoId
  else videoId

/-- The value of `videoId` after the five strategies, starting from `let videoId = null`. -/
def resolveVideoId (h : Heap) (item : QueueItem) : JSVal :=
  strategy5 item (strategy4 item (strategy3 h item (strategy2 h item (strategy1 h item .null))))

/-- The text `${videoId}` of a template literal. The script builds it only under
`isValidVideoId(videoId)`, which holds of strings alone; other values get the empty text. -/
def templateText : JSVal → JSString
  | .string s => s
  | _ => []

/-- The final `if (videoId && isValidVideoId(videoId)) ... else ...` (lines 140-154): the
entry pushed onto `links`. -/
def buildResult (title artist : JSString) (videoId : JSVal) : ExtractionResult :=
  if truthy videoId && isValidVideoId videoId then
    { title := title, artist := artist,
      url := lit "https://www.youtube.com/watch?v=" ++ templateText videoId,
      videoId := videoId }
  else
    { title := title, artist := artist, url := lit "[VIDEO_ID_NOT_FOUND]", videoId := .null }

/-- The body of the `items.forEach` callback: the entry one item adds to `links`. -/
def processItem (h : Heap) (item : QueueItem) : ExtractionResult :=
  let title := textOr (queryClass item (lit "song-title")) (lit "[No Title]")
  let artist := textOr (queryClass item (lit "byline")) (lit "[No Artist]")
  buildResult title artist (resolveVideoId h item)

/-- The script up to its return value: `links` after `items.forEach`, each item pushing its
entry at the end. -/
def extractLinks (h : Heap) (items : List QueueItem) : List ExtractionResult :=
  items.foldl (fun links item => links ++ [processItem h item]) []

/-! ### The strategies one by one, as the specification speaks of them -/

/-- Spec wording: what strategy 1 yields on its own. -/
def yield1 (h : Heap) (item : QueueItem) : JSVal := strategy1 h item .null

/-- Spec wording: what strategy 2 yields on its own. -/
def yield2 (h : Heap) (item : QueueItem) : JSVal := strategy2 h item .null

/-- Spec wording: what strategy 3 yields on its own. -/
def yield3 (h : Heap) (item : QueueItem) : JSVal := strategy3 h item .null

/-- Spec wording: what strategy 4 yields on its own. -/
def yield4 (item : QueueItem) : JSVal := strategy4 item .null

/-- Spec wording: what strategy 5 yields on its own. -/
def yield5 (item : QueueItem) : JSVal := strategy5 item .null

/-- Spec wording: the first valid identifier in a list of yields, null if there is none. -/
def firstValid : List JSVal → JSVal
  | [] => .null
  | v :: rest => if isValidVideoId v then v else firstValid rest

/-- A value of the variable `videoId`: null or a valid identifier. -/
def NullOrValid (v : JSVal) : Prop := v = .null ∨ isValidVideoId v = true

/-! ## The clipboard text (`script.js` lines 172-175) -/

/-- The method `Array.prototype.join` on an array of strings. -/
def joinWith (sep : JSString) : List JSString → JSString
  | [] => []
  | [x] => x
  | x :: y :: rest => x ++ sep ++ joinWith sep (y :: rest)

/-- The arrow function passed to `links.map`: the text of one result. -/
def clipboardEntry (l : ExtractionResult) : JSString :=
  l.title ++ lit " - " ++ l.artist ++ lit "\n" ++ l.url ++
    (if truthy l.videoId then lit "\nVideo ID: " ++ templateText l.videoId else [])

/-- The constant `clipboardText`. -/
def clipboardText (links : List ExtractionResult) : JSString :=
  joinWith (lit "\n\n") (links.map clipboardEntry)

/-- Spec wording: a result's paragraph is `title - artist`, a newline, the url and, only when
the identifier is not null, a further newline and `Video ID: ` followed by the identifier. -/
def paragraph (l : ExtractionResult) : JSString :=
  match l.videoId with
  | .null => l.title ++ lit " - " ++ l.artist ++ lit "\n" ++ l.url
  | .string videoId =>
    l.title ++ lit " - " ++ l.artist ++ lit "\n" ++ l.url ++ lit "\n" ++ lit "Video ID: " ++
      videoId
  | _ => l.title ++ lit " - " ++ l.artist ++ lit "\n" ++ l.url ++ lit "\n" ++ lit "Video ID: "

/-! ## Spec-side notions for the later claims -/

/-- Spec wording: the same validator as `isValidVideoId`, over a given denylist. -/
def isValidVideoIdWith (denylist : List JSString) (v : JSVal) : Bool :=
  match v with
  | .string str =>
    if str.isEmpty || str.length != 11 then false
    else if denylist.any (fun fp => includes str fp) then false
    else matchesIdPattern str && !matchesRepeated str && !includes str (lit "-scope") &&
      !includes str (lit "style")
  | _ => false

/-- Spec wording: object `r'` is the value of a field of object `r`. -/
def FieldEdge (h : Heap) (r r' : Nat) : Prop :=
  ∃ key : JSString, (key, JSVal.object r') ∈ entries h r

/-- Spec wording: `r` is reachable from `root` through object-valued fields, `root` included. -/
def Reachable (h : Heap) (root r : Nat) : Prop :=
  Relation.ReflTransGen (FieldEdge h) root r

/-- Spec wording: object `r` has a `videoId` field on which `isValidVideoId` is true. -/
def hasValidVideoId (h : Heap) (r : Nat) : Bool :=
  isValidVideoId (getProp h (.object r) (lit "videoId"))

/-- An object the search is done with: no valid `videoId` field of its own, and every object
among its field values is in the set `seen`. -/
def Settled (h : Heap) (seen : List Nat) (r : Nat) : Prop :=
  hasValidVideoId h r = false ∧ ∀ r', FieldEdge h r r' → r' ∈ seen

/-- Spec wording: the first non-empty value among the attributes `data-video-id`,
`data-videoid`, `videoid`, in this order. -/
def firstNonEmptyAttribute (el : Element) : Option JSString :=
  ([lit "data-video-id", lit "data-videoid", lit "videoid"].filterMap
    (fun name => el.attrs.lookup name)).find? (fun value => !value.isEmpty)

/-- Spec wording: strategy 5 returns the first valid one of the elements' first non-empty
attribute values, in document order, and null if there is none. -/
def firstValidAttribute (els : List Element) : JSVal :=
  match (els.filterMap firstNonEmptyAttribute).find? (fun value => isValidVideoId (.string value)) with
  | some value => .string value
  | none => .null

/-! ## Example data -/

/-- The heap of the object `{a: {navigationEndpoint: {watchEndpoint: {videoId: "dQw4w9WgXcQ"}}}}`. -/
def nestedEndpointHeap : Heap :=
  [[(lit "a", .object 1)], [(lit "navigationEndpoint", .object 2)],
   [(lit "watchEndpoint", .object 3)], [(lit "videoId", .string (lit "dQw4w9WgXcQ"))]]

/-- A title element with text "Never Gonna Give You Up". -/
def exampleTitle : Element :=
  { tag := lit "yt-formatted-string", classes := [lit "song-title"], attrs := [],
    innerText := lit "Never Gonna Give You Up", data := .undefined, dataHost := .undefined }

/-- A byline element with text "Rick Astley". -/
def exampleByline : Element :=
  { tag := lit "yt-formatted-string", classes := [lit "byline"], attrs := [],
    innerText := lit "Rick Astley", data := .undefined, dataHost := .undefined }

/-- An item whose own data is object 0 of `nestedEndpointHeap`. -/
def nestedEndpointItem : QueueItem :=
  { data := .object 0, dataHost := .undefined, descendants := [exampleTitle, exampleByline] }

/-- An anchor with the address `/watch?v=abcdefgh123`. -/
def exampleAnchor : Element :=
  { tag := lit "a", classes := [], attrs := [(lit "href", lit "/watch?v=abcdefgh123")],
    innerText := [], data := .undefined, dataHost := .undefined }

/-- An item with no attached data and one anchor. -/
def hrefItem : QueueItem :=
  { data := .undefined, dataHost := .undefined, descendants := [exampleAnchor] }

/-- A heap whose only candidate is the denylisted token `style-scope`, on a cycle. -/
def denylistedHeap : Heap :=
  [[(lit "self", .object 0), (lit "next", .object 1)],
   [(lit "back", .object 0), (lit "videoId", .string (lit "style-scope"))]]

/-- An item all of whose data, addresses and attributes carry only `style-scope`. -/
def denylistedItem : QueueItem :=
  { data := .object 0, dataHost := .undefined,
    descendants :=
      [{ tag := lit "ytmusic-play-button-renderer", classes := [], attrs := [],
         innerText := [], data := .object 1, dataHost := .undefined },
       { tag := lit "a", classes := [],
         attrs := [(lit "href", lit "/watch?v=style-scope"),
                   (lit "data-video-id", lit "style-scope")],
         innerText := [], data := .undefined, dataHost := .undefined }] }

/-- A byline element whose text is white space only. -/
def blankByline : Element :=
  { tag := lit "yt-formatted-string", classes := [lit "byline"], attrs := [],
    innerText := lit "  \n\t ", data := .undefined, dataHost := .undefined }

/-- An item with no title element and a blank byline. -/
def blankItem : QueueItem :=
  { data := .undefined, dataHost := .undefined, descendants := [blankByline] }

/-- An element whose first identifier attribute is denylisted and whose second is valid. -/
def shadowedElement : Element :=
  { tag := lit "div", classes := [],
    attrs := [(lit "data-videoid", lit "dQw4w9WgXcQ"), (lit "data-video-id", lit "style-scope")],
    innerText := [], data := .undefined, dataHost := .undefined }

/-- An element with the attribute `videoid="abcdefgh123"`. -/
def plainIdElement : Element :=
  { tag := lit "div", classes := [], attrs := [(lit "videoid", lit "abcdefgh123")],
    innerText := [], data := .undefined, dataHost := .undefined }

/-- An item whose identifier can only come from attributes. -/
def attributeItem : QueueItem :=
  { data := .undefined, dataHost := .undefined,
    descendants := [shadowedElement, plainIdElement] }

/-- An anchor whose address carries a 14-character token. -/
def longTokenAnchor : Element :=
  { tag := lit "a", classes := [], attrs := [(lit "href", lit "/watch?v=abcdefgh123XYZ")],
    innerText := [], data := .undefined, dataHost := .undefined }

/-- A heap with an empty object and an object holding a valid identifier. -/
def hostHeap : Heap := [[], [(lit "videoId", .string (lit "dQw4w9WgXcQ"))]]

/-- An item whose `__data` is the empty object and whose `__dataHost` holds an identifier. -/
def hostItem : QueueItem :=
  { data := .object 0, dataHost := .object 1, descendants := [] }

/-! ### What each strategy looks at, as the specification words it -/

/-- Spec wording: the search of the structured data attached to an element, `__data` if
present and `__dataHost` otherwise; null when neither is present. -/
def searchAttached (h : Heap) (data dataHost : JSVal) : JSVal :=
  match [data, dataHost].find? truthy with
  | some attached => checkForVideoId h attached
  | none => .null

/-- Spec wording, strategy 1: the item's own attached data. -/
def ownDataId (h : Heap) (item : QueueItem) : JSVal :=
  searchAttached h item.data item.dataHost

/-- Spec wording, strategy 2: the attached data of the play button, the first
`ytmusic-play-button-renderer` among the descendants; null when there is no play button. -/
def playButtonId (h : Heap) (item : QueueItem) : JSVal :=
  match (item.descendants.filter
      (fun el => el.tag == lit "ytmusic-play-button-renderer")).head? with
  | some playButton => searchAttached h playButton.data playButton.dataHost
  | none => .null

/-- Spec wording, strategy 3: each descendant's attached data in document order, the first
search that gives an identifier deciding. -/
def descendantDataId (h : Heap) (item : QueueItem) : JSVal :=
  firstValid (item.descendants.map (fun el => searchAttached h el.data el.dataHost))

/-- Spec wording: the addresses of the item's anchors that contain a watch-link pattern,
`watch?v=` or `/watch/`, in document order. -/
def watchHrefs (item : QueueItem) : List JSString :=
  ((item.descendants.filter (fun el => el.tag == lit "a")).filterMap
    (fun el => el.attrs.lookup (lit "href"))).filter
      (fun href => includes href (lit "watch?v=") || includes href (lit "/watch/"))

/-- Spec wording: the token the pattern `[?&/]v=(token)` captures in an address, null when
the pattern does not match. -/
def hrefToken (href : JSString) : JSVal :=
  match hrefMatch href with
  | some token => .string token
  | none => .null

/-- Spec wording, strategy 4: the anchors' addresses in document order, the first captured
token that is valid deciding. -/
def anchorHrefId (item : QueueItem) : JSVal :=
  firstValid ((watchHrefs item).map hrefToken)

/-- Spec wording, strategy 5: the identifier attributes of the elements that carry one of
`data-video-id`, `data-videoid`, `videoid`, in document order. -/
def attributeId (item : QueueItem) : JSVal :=
  firstValidAttribute
    (item.descendants.filter (fun el =>
      (el.attrs.lookup (lit "data-video-id")).isSome ||
        (el.attrs.lookup (lit "data-videoid")).isSome ||
        (el.attrs.lookup (lit "videoid")).isSome))

/-- An anchor with the address `/watch?v=dQw4w9WgXcQ`. -/
def otherAnchor : Element :=
  { tag := lit "a", classes := [], attrs := [(lit "href", lit "/watch?v=dQw4w9WgXcQ")],
    innerText := [], data := .undefined, dataHost := .undefined }

/-- An item with no attached data and two anchors, `otherAnchor` before `exampleAnchor`. -/
def twoAnchorItem : QueueItem :=
  { data := .undefined, dataHost := .undefined, descendants := [otherAnchor, exampleAnchor] }

/-- A heap with two objects, each holding one valid identifier. -/
def orderHeap : Heap :=
  [[(lit "videoId", .string (lit "dQw4w9WgXcQ"))],
   [(lit "videoId", .string (lit "abcdefgh123"))]]

/-- An item whose own data, play button, anchor and attribute each carry an identifier. -/
def orderItem : QueueItem :=
  { data := .object 0, dataHost := .undefined,
    descendants :=
      [{ tag := lit "ytmusic-play-button-renderer", classes := [], attrs := [],
         innerText := [], data := .object 1, dataHost := .undefined },
       { tag := lit "a", classes := [],
         attrs := [(lit "href", lit "/watch?v=abcdefgh123"),
                   (lit "data-video-id", lit "abcdefgh123")],
         innerText := [], data := .undefined, dataHost := .undefined }] }

/-! ## Facts about strings -/

theorem includes_spec (s needle : JSString) :
    includes s needle = true ↔ needle <:+: s := by
  induction s with
  | nil =>
    cases needle <;> simp [includes, List.isPrefixOf]
  | cons c cs ih =>
    rw [includes, Bool.or_eq_true, ih, List.infix_cons_iff, List.isPrefixOf_iff_prefix]

theorem isIdChar_iff (c : Nat) :
    isIdChar c = true ↔
      (97 ≤ c ∧ c ≤ 122) ∨ (65 ≤ c ∧ c ≤ 90) ∨ (48 ≤ c ∧ c ≤ 57) ∨ c = 95 ∨ c = 45 := by
  simp [isIdChar, or_assoc]

theorem isIdChar_not_lineTerminator (c : Nat) (hc : isIdChar c = true) :
    isLineTerminator c = false := by
  rw [isIdChar_iff] at hc
  have h10 : c ≠ 10 := by omega
  have h13 : c ≠ 13 := by omega
  have h8232 : c ≠ 8232 := by omega
  have h8233 : c ≠ 8233 := by omega
  simp [isLineTerminator, h10, h13, h8232, h8233]

theorem matchesRepeated_iff (s : JSString) :
    matchesRepeated s = true ↔ ∃ c, isLineTerminator c = false ∧ s = List.replicate 11 c := by
  cases s with
  | nil => simp [matchesRepeated, List.replicate]
  | cons c rest =>
    simp only [matchesRepeated, Bool.and_eq_true, Bool.not_eq_true', beq_iff_eq, List.all_eq_true]
    constructor
    · rintro ⟨⟨hc, hlen⟩, hall⟩
      refine ⟨c, hc, ?_⟩
      have : rest = List.replicate 10 c := by
        rw [List.eq_replicate_iff]
        exact ⟨hlen, hall⟩
      rw [this]
      rfl
    · rintro ⟨d, hd, hs⟩
      have h1 : c :: rest = d :: List.replicate 10 d := by rw [hs]; rfl
      injection h1 with h2 h3
      subst h2
      subst h3
      simp [hd]

theorem isValidVideoId_string (s : JSString) :
    isValidVideoId (.string s) = true ↔
      s.length = 11 ∧ (∀ fp ∈ falsePositives, ¬ fp <:+: s) ∧ (∀ c ∈ s, isIdChar c = true) ∧
        matchesRepeated s = false ∧ ¬ lit "-scope" <:+: s ∧ ¬ lit "style" <:+: s := by
  unfold isValidVideoId
  by_cases hlen : s.length = 11
  · have hne : s.isEmpty = false := by
      cases s with
      | nil => simp at hlen
      | cons c cs => rfl
    by_cases hfp : falsePositives.any (fun fp => includes s fp) = true
    · have hfp2 := hfp
      rw [List.any_eq_true] at hfp2
      obtain ⟨fp, hmem, hin⟩ := hfp2
      rw [includes_spec] at hin
      simp only [hne, hlen, hfp]
      simp only [bne_self_eq_false, Bool.or_self, Bool.false_eq_true, if_false, if_true,
        false_iff, not_and]
      intro _ hall
      exact absurd hin (hall fp hmem)
    · have hall : ∀ fp ∈ falsePositives, ¬ fp <:+: s := by
        intro fp hmem hin
        apply hfp
        rw [List.any_eq_true]
        exact ⟨fp, hmem, (includes_spec s fp).mpr hin⟩
      simp only [hne, hlen, hfp]
      simp only [bne_self_eq_false, Bool.or_self, Bool.false_eq_true, if_false,
        matchesIdPattern, hlen, beq_self_eq_true, Bool.true_and, Bool.and_eq_true,
        List.all_eq_true, Bool.not_eq_true', true_and]
      rw [← Bool.not_eq_true (includes s (lit "-scope")),
        ← Bool.not_eq_true (includes s (lit "style")), includes_spec, includes_spec]
      constructor
      · rintro ⟨⟨⟨h1, h2⟩, h3⟩, h4⟩
        exact ⟨hall, h1, h2, h3, h4⟩
      · rintro ⟨_, h1, h2, h3, h4⟩
        exact ⟨⟨⟨h1, h2⟩, h3⟩, h4⟩
  · have : (s.length != 11) = true := by simpa using hlen
    simp [this, hlen]

/-- C1. `isValidVideoId(s)` is true exactly when `s` is a string of length 11, all of whose
characters are in `[a-zA-Z0-9_-]`, that contains none of the six denylisted substrings, is not
one character repeated 11 times, and contains neither `-scope` nor `style`. -/
theorem isValidVideoId_iff (v : JSVal) :
    isValidVideoId v = true ↔
      ∃ s : JSString, v = .string s ∧ s.length = 11 ∧
        (∀ c ∈ s, (97 ≤ c ∧ c ≤ 122) ∨ (65 ≤ c ∧ c ≤ 90) ∨ (48 ≤ c ∧ c ≤ 57) ∨ c = 95 ∨ c = 45) ∧
        (∀ fp ∈ [lit "style-scope", lit "yt-spec-icon", lit "css-build", lit "dom-if",
            lit "template", lit "polymer"], ¬ fp <:+: s) ∧
        (¬ ∃ c, s = List.replicate 11 c) ∧
        ¬ lit "-scope" <:+: s ∧ ¬ lit "style" <:+: s := by
  constructor
  · intro hv
    cases v with
    | string s =>
      rw [isValidVideoId_string] at hv
      obtain ⟨hlen, hfp, hcls, hrep, h1, h2⟩ := hv
      refine ⟨s, rfl, hlen, fun c hc => (isIdChar_iff c).mp (hcls c hc), hfp, ?_, h1, h2⟩
      rintro ⟨c, hc⟩
      have hcmem : c ∈ s := by rw [hc]; simp [List.replicate]
      have : matchesRepeated s = true :=
        (matchesRepeated_iff s).mpr ⟨c, isIdChar_not_lineTerminator c (hcls c hcmem), hc⟩
      rw [hrep] at this
      exact Bool.false_ne_true this
    | _ => simp [isValidVideoId] at hv
  · rintro ⟨s, rfl, hlen, hcls, hfp, hrep, h1, h2⟩
    rw [isValidVideoId_string]
    refine ⟨hlen, hfp, fun c hc => (isIdChar_iff c).mpr (hcls c hc), ?_, h1, h2⟩
    cases hm : matchesRepeated s with
    | false => rfl
    | true =>
      obtain ⟨c, _, hc⟩ := (matchesRepeated_iff s).mp hm
      exact absurd ⟨c, hc⟩ hrep

theorem invalid_of_length_ne (s : JSString) (hlen : s.length ≠ 11) :
    isValidVideoId (.string s) = false := by
  cases hv : isValidVideoId (.string s) with
  | false => rfl
  | true => exact absurd ((isValidVideoId_string s).mp hv).1 hlen

/-- C9. A string whose length is not 11 is never a valid identifier. -/
theorem isValidVideoId_length_ne (s : JSString) (hlen : s.length ≠ 11) :
    isValidVideoId (.string s) = false :=
  invalid_of_length_ne s hlen

theorem isValidVideoId_length_ne_witness :
    (lit "dQw4w9WgXcQx").length ≠ 11 ∧ isValidVideoId (.string (lit "dQw4w9WgXcQx")) = false :=
  ⟨by decide, isValidVideoId_length_ne (lit "dQw4w9WgXcQx") (by decide)⟩

/-- C10. One character repeated 11 times is never a valid identifier, whether the character
is a single code unit (in the identifier class or not) or a surrogate pair of two units. -/
theorem isValidVideoId_repeated :
    (∀ c : CodeUnit, isValidVideoId (.string (List.replicate 11 c)) = false) ∧
      (∀ hi lo : CodeUnit,
        isValidVideoId (.string (List.replicate 11 [hi, lo]).flatten) = false) := by
  constructor
  · intro c
    cases hv : isValidVideoId (.string (List.replicate 11 c)) with
    | false => rfl
    | true =>
      obtain ⟨_, _, hcls, hrep, _⟩ := (isValidVideoId_string _).mp hv
      have hcmem : c ∈ List.replicate 11 c := by simp [List.replicate]
      have : matchesRepeated (List.replicate 11 c) = true :=
        (matchesRepeated_iff _).mpr ⟨c, isIdChar_not_lineTerminator c (hcls c hcmem), rfl⟩
      rw [hrep] at this
      exact absurd this Bool.false_ne_true
  · intro hi lo
    apply invalid_of_length_ne
    simp [List.replicate]

theorem isValidVideoId_truthy (v : JSVal) (hv : isValidVideoId v = true) : truthy v = true := by
  cases v with
  | string s =>
    have hlen := ((isValidVideoId_string s).mp hv).1
    cases s with
    | nil => simp at hlen
    | cons c cs => rfl
  | _ => simp [isValidVideoId] at hv

theorem getProp_of_not_truthy (h : Heap) (v : JSVal) (key : JSString)
    (hv : truthy v = false) : getProp h v key = .undefined := by
  cases v <;> first | rfl | simp [truthy] at hv

theorem isValidVideoId_undefined : isValidVideoId .undefined = false := rfl

theorem truthy_of_getProp_valid (h : Heap) (v : JSVal) (key : JSString)
    (hv : isValidVideoId (getProp h v key) = true) : truthy v = true := by
  cases ht : truthy v with
  | true => rfl
  | false =>
    rw [getProp_of_not_truthy h v key ht, isValidVideoId_undefined] at hv
    exact absurd hv Bool.false_ne_true

/-- On entering an object, the code returns the first valid direct candidate, and runs the
loop over the fields only when there is none. -/
theorem checkForVideoIdAux_enter (h : Heap) (fuel r : Nat) (visited : List Nat)
    (hnew : visited.contains r = false) :
    checkForVideoIdAux h (fuel + 1) (.object r) visited =
      match (directCandidates h (.object r)).find? isValidVideoId with
      | some videoId => some (videoId, r :: visited)
      | none => searchEntries (checkForVideoIdAux h fuel) (entries h r) (r :: visited) := by
  simp only [checkForVideoIdAux, hnew, directCandidates, readPath, List.find?]
  generalize getProp h (.object r) (lit "videoId") = a
  generalize getProp h (.object r) (lit "watchEndpoint") = w
  generalize getProp h (.object r) (lit "navigationEndpoint") = n
  have hw := truthy_of_getProp_valid h w (lit "videoId")
  have hn := truthy_of_getProp_valid h n (lit "videoId")
  have hnw := truthy_of_getProp_valid h (getProp h n (lit "watchEndpoint")) (lit "videoId")
  have hnw2 : truthy n = false → getProp h (getProp h n (lit "watchEndpoint")) (lit "videoId") = .undefined := by
    intro hf
    rw [getProp_of_not_truthy h n _ hf]
    rfl
  have ha := isValidVideoId_truthy a
  have hwa := isValidVideoId_truthy (getProp h w (lit "videoId"))
  have hna := isValidVideoId_truthy (getProp h n (lit "videoId"))
  have hnwa := isValidVideoId_truthy (getProp h (getProp h n (lit "watchEndpoint")) (lit "videoId"))
  generalize getProp h w (lit "videoId") = wa at *
  generalize getProp h n (lit "videoId") = na at *
  generalize getProp h (getProp h n (lit "watchEndpoint")) (lit "videoId") = nwa at *
  generalize getProp h n (lit "watchEndpoint") = nw at *
  cases hva : isValidVideoId a <;> cases hvwa : isValidVideoId wa <;>
    cases hvna : isValidVideoId na <;> cases hvnwa : isValidVideoId nwa <;>
    cases htn : truthy n <;>
    simp_all [isValidVideoId_undefined]

theorem searchEntries_sound (f : JSVal → List Nat → Option (JSVal × List Nat))
    (hf : SearchSound f) (es : JSObject) :
    ∀ visited result visited', searchEntries f es visited = some (result, visited') →
      (result = .null ∨ isValidVideoId result = true) ∧
        (∃ entered, visited' = entered ++ visited) ∧ (visited.Nodup → visited'.Nodup) := by
  induction es with
  | nil =>
    intro visited result visited' hrun
    simp only [searchEntries, Option.some.injEq, Prod.mk.injEq] at hrun
    obtain ⟨rfl, rfl⟩ := hrun
    exact ⟨Or.inl rfl, ⟨[], rfl⟩, id⟩
  | cons e rest ih =>
    obtain ⟨key, value⟩ := e
    intro visited result visited' hrun
    simp only [searchEntries] at hrun
    split at hrun
    · cases hcall : f value visited with
      | none => simp [hcall] at hrun
      | some p =>
        obtain ⟨res1, vis1⟩ := p
        obtain ⟨hres1, ⟨ent1, hent1⟩, hnd1⟩ := hf value visited res1 vis1 hcall
        simp only [hcall] at hrun
        split at hrun
        · simp only [Option.some.injEq, Prod.mk.injEq] at hrun
          obtain ⟨rfl, rfl⟩ := hrun
          exact ⟨hres1, ⟨ent1, hent1⟩, hnd1⟩
        · obtain ⟨hres, ⟨ent2, hent2⟩, hnd2⟩ := ih vis1 result visited' hrun
          refine ⟨hres, ⟨ent2 ++ ent1, ?_⟩, fun hnd => hnd2 (hnd1 hnd)⟩
          rw [hent2, hent1, List.append_assoc]
    · exact ih visited result visited' hrun

theorem checkForVideoIdAux_sound (h : Heap) (fuel : Nat) :
    SearchSound (checkForVideoIdAux h fuel) := by
  induction fuel with
  | zero =>
    intro v visited result visited' hrun
    simp [checkForVideoIdAux] at hrun
  | succ fuel ih =>
    intro v visited result visited' hrun
    cases v with
    | object r =>
      cases hnew : visited.contains r with
      | true =>
        simp only [checkForVideoIdAux, hnew, if_true, Option.some.injEq, Prod.mk.injEq] at hrun
        obtain ⟨rfl, rfl⟩ := hrun
        exact ⟨Or.inl rfl, ⟨[], rfl⟩, id⟩
      | false =>
        have hnotin : r ∉ visited := by simpa using hnew
        rw [checkForVideoIdAux_enter h fuel r visited hnew] at hrun
        split at hrun
        · rename_i videoId hfind
          simp only [Option.some.injEq, Prod.mk.injEq] at hrun
          obtain ⟨rfl, rfl⟩ := hrun
          refine ⟨Or.inr (by simpa using List.find?_some hfind), ⟨[r], rfl⟩, fun hnd => ?_⟩
          exact List.nodup_cons.mpr ⟨hnotin, hnd⟩
        · obtain ⟨hres, ⟨ent, hent⟩, hnd⟩ :=
            searchEntries_sound _ ih (entries h r) (r :: visited) result visited' hrun
          refine ⟨hres, ⟨ent ++ [r], ?_⟩, fun hnd0 => hnd (List.nodup_cons.mpr ⟨hnotin, hnd0⟩)⟩
          rw [hent, List.append_assoc]
          rfl
    | _ =>
      simp only [checkForVideoIdAux, Option.some.injEq, Prod.mk.injEq] at hrun
      obtain ⟨rfl, rfl⟩ := hrun
      exact ⟨Or.inl rfl, ⟨[], rfl⟩, id⟩

theorem unvisitedCount_le_length (h : Heap) (visited : List Nat) :
    unvisitedCount h visited ≤ h.length := by
  unfold unvisitedCount
  calc ((Finset.range h.length).filter (fun r => r ∉ visited)).card
      ≤ (Finset.range h.length).card := Finset.card_filter_le _ _
    _ = h.length := Finset.card_range _

theorem unvisitedCount_append_le (h : Heap) (entered visited : List Nat) :
    unvisitedCount h (entered ++ visited) ≤ unvisitedCount h visited := by
  unfold unvisitedCount
  apply Finset.card_le_card
  intro r hr
  simp only [Finset.mem_filter, Finset.mem_range, List.mem_append, not_or] at hr ⊢
  exact ⟨hr.1, hr.2.2⟩

theorem unvisitedCount_cons_lt (h : Heap) (r : Nat) (visited : List Nat)
    (hr : r < h.length) (hnew : r ∉ visited) :
    unvisitedCount h (r :: visited) < unvisitedCount h visited := by
  unfold unvisitedCount
  apply Finset.card_lt_card
  constructor
  · intro x hx
    simp only [Finset.mem_filter, Finset.mem_range, List.mem_cons, not_or] at hx ⊢
    exact ⟨hx.1, hx.2.2⟩
  · intro hsub
    have hmem : r ∈ (Finset.range h.length).filter (fun x => x ∉ r :: visited) := by
      apply hsub
      simp only [Finset.mem_filter, Finset.mem_range]
      exact ⟨hr, hnew⟩
    simp at hmem

theorem entries_of_length_le (h : Heap) (r : Nat) (hr : h.length ≤ r) : entries h r = [] := by
  unfold entries
  rw [List.get?_eq_none.mpr hr]
  rfl

theorem searchEntries_total (h : Heap) (fuel : Nat)
    (f : JSVal → List Nat → Option (JSVal × List Nat)) (hf : SearchSound f)
    (htot : ∀ v visited, unvisitedCount h visited < fuel → ∃ x, f v visited = some x)
    (es : JSObject) :
    ∀ visited, unvisitedCount h visited < fuel → ∃ x, searchEntries f es visited = some x := by
  induction es with
  | nil =>
    intro visited _
    exact ⟨_, rfl⟩
  | cons e rest ih =>
    obtain ⟨key, value⟩ := e
    intro visited hcount
    simp only [searchEntries]
    split
    · obtain ⟨⟨res1, vis1⟩, hcall⟩ := htot value visited hcount
      obtain ⟨_, ⟨ent, hent⟩, _⟩ := hf value visited res1 vis1 hcall
      simp only [hcall]
      split
      · exact ⟨_, rfl⟩
      · apply ih
        rw [hent]
        exact lt_of_le_of_lt (unvisitedCount_append_le h ent visited) hcount
    · exact ih visited hcount

/-- A depth budget above the number of unvisited objects never runs out. -/
theorem checkForVideoIdAux_total (h : Heap) :
    ∀ fuel obj visited, unvisitedCount h visited < fuel →
      ∃ x, checkForVideoIdAux h fuel obj visited = some x := by
  intro fuel
  induction fuel with
  | zero =>
    intro obj visited hcount
    exact absurd hcount (Nat.not_lt_zero _)
  | succ fuel ih =>
    intro obj visited hcount
    cases obj with
    | object r =>
      cases hnew : visited.contains r with
      | true => exact ⟨(.null, visited), by simp only [checkForVideoIdAux, hnew, if_true]⟩
      | false =>
        have hnotin : r ∉ visited := by simpa using hnew
        rw [checkForVideoIdAux_enter h fuel r visited hnew]
        split
        · exact ⟨_, rfl⟩
        · by_cases hr : r < h.length
          · apply searchEntries_total h fuel _ (checkForVideoIdAux_sound h fuel) ih
            have := unvisitedCount_cons_lt h r visited hr hnotin
            omega
          · rw [entries_of_length_le h r (not_lt.mp hr)]
            exact ⟨_, rfl⟩
    | _ => exact ⟨(.null, visited), by simp only [checkForVideoIdAux]⟩

theorem searchEntries_mono (f g : JSVal → List Nat → Option (JSVal × List Nat))
    (hfg : ∀ v visited x, f v visited = some x → g v visited = some x) (es : JSObject) :
    ∀ visited x, searchEntries f es visited = some x → searchEntries g es visited = some x := by
  induction es with
  | nil =>
    intro visited x hrun
    exact hrun
  | cons e rest ih =>
    obtain ⟨key, value⟩ := e
    intro visited x hrun
    simp only [searchEntries] at hrun ⊢
    split
    · rename_i hobj
      simp only [hobj, if_true] at hrun
      cases hcall : f value visited with
      | none => simp [hcall] at hrun
      | some p =>
        obtain ⟨res1, vis1⟩ := p
        simp only [hcall] at hrun
        simp only [hfg value visited _ hcall]
        split
        · rename_i ht
          simpa only [ht, if_true] using hrun
        · rename_i ht
          simp only [ht] at hrun
          exact ih vis1 x hrun
    · rename_i hobj
      simp only [hobj] at hrun
      exact ih visited x hrun

/-- A result obtained within one depth budget is obtained within every larger one. -/
theorem checkForVideoIdAux_fuel_succ (h : Heap) :
    ∀ fuel obj visited x, checkForVideoIdAux h fuel obj visited = some x →
      checkForVideoIdAux h (fuel + 1) obj visited = some x := by
  intro fuel
  induction fuel with
  | zero =>
    intro obj visited x hrun
    simp [checkForVideoIdAux] at hrun
  | succ fuel ih =>
    intro obj visited x hrun
    cases obj with
    | object r =>
      cases hnew : visited.contains r with
      | true =>
        simp only [checkForVideoIdAux, hnew, if_true] at hrun ⊢
        exact hrun
      | false =>
        rw [checkForVideoIdAux_enter h fuel r visited hnew] at hrun
        rw [checkForVideoIdAux_enter h (fuel + 1) r visited hnew]
        split
        · rename_i videoId hfind
          simpa only [hfind] using hrun
        · rename_i hfind
          simp only [hfind] at hrun
          exact searchEntries_mono _ _ ih (entries h r) _ x hrun
    | _ =>
      simp only [checkForVideoIdAux] at hrun ⊢
      exact hrun

theorem checkForVideoIdAux_fuel_le (h : Heap) (fuel fuel' : Nat) (hle : fuel ≤ fuel')
    (obj : JSVal) (visited : List Nat) (x : JSVal × List Nat)
    (hrun : checkForVideoIdAux h fuel obj visited = some x) :
    checkForVideoIdAux h fuel' obj visited = some x := by
  induction hle with
  | refl => exact hrun
  | step _ ih => exact checkForVideoIdAux_fuel_succ h _ obj visited x ih

theorem truthy_iff_ne_null (v : JSVal) (hv : v = .null ∨ isValidVideoId v = true) :
    truthy v = true ↔ v ≠ .null := by
  rcases hv with rfl | hv
  · simp [truthy]
  · constructor
    · rintro _ rfl
      simp [isValidVideoId] at hv
    · intro _
      exact isValidVideoId_truthy v hv

theorem searchEntries_eq_firstNonNull (f : JSVal → List Nat → Option (JSVal × List Nat))
    (hf : SearchSound f) (es : JSObject) :
    ∀ visited, searchEntries f es visited =
      firstNonNull f ((es.map Prod.snd).filter isObject) visited := by
  induction es with
  | nil =>
    intro visited
    rfl
  | cons e rest ih =>
    obtain ⟨key, value⟩ := e
    intro visited
    cases hobj : isObject value with
    | false =>
      simp only [searchEntries, hobj, List.map_cons, List.filter_cons]
      simpa using ih visited
    | true =>
      simp only [searchEntries, hobj, List.map_cons, List.filter_cons, if_true, firstNonNull]
      cases hcall : f value visited with
      | none => rfl
      | some p =>
        obtain ⟨res1, vis1⟩ := p
        have hres := (hf value visited res1 vis1 hcall).1
        have hiff := truthy_iff_ne_null res1 hres
        by_cases hnull : res1 = .null
        · have ht : truthy res1 = false := by
            cases htr : truthy res1 with
            | false => rfl
            | true => exact absurd hnull (hiff.mp htr)
          simp only [ht, hnull, if_true, Bool.false_eq_true, if_false]
          exact ih vis1
        · simp only [hiff.mpr hnull, hnull, if_true, if_false]

theorem searchEntries_fuel_succ (h : Heap) (fuel : Nat) (es : JSObject) (visited : List Nat)
    (hcount : unvisitedCount h visited < fuel) :
    searchEntries (checkForVideoIdAux h (fuel + 1)) es visited =
      searchEntries (checkForVideoIdAux h fuel) es visited := by
  obtain ⟨x, hx⟩ := searchEntries_total h fuel _ (checkForVideoIdAux_sound h fuel)
    (checkForVideoIdAux_total h fuel) es visited hcount
  rw [hx]
  exact searchEntries_mono _ _ (checkForVideoIdAux_fuel_succ h fuel) es visited x hx

theorem checkForVideoIdRun_enter (h : Heap) (r : Nat) (visited : List Nat)
    (hnew : r ∉ visited) :
    checkForVideoIdRun h (.object r) visited = priorityOrder h (checkForVideoIdRun h) r visited := by
  have hc : visited.contains r = false := by simpa using hnew
  unfold checkForVideoIdRun priorityOrder
  rw [checkForVideoIdAux_enter h h.length r visited hc]
  split
  · rfl
  · rw [← searchEntries_eq_firstNonNull _ (checkForVideoIdAux_sound h (h.length + 1))]
    by_cases hr : r < h.length
    · rw [searchEntries_fuel_succ]
      have h1 := unvisitedCount_cons_lt h r visited hr hnew
      have h2 := unvisitedCount_le_length h visited
      omega
    · rw [entries_of_length_le h r (not_lt.mp hr)]
      rfl

/-- C2. On an object the search enters, the result is the first valid one of `videoId`,
`watchEndpoint.videoId`, `navigationEndpoint.videoId`,
`navigationEndpoint.watchEndpoint.videoId`; failing these, the first non-null result of
recursing into the object-valued fields in enumeration order; and null otherwise. A valid
identifier at one of the four direct places is returned whatever the fields contain. -/
theorem checkForVideoId_priority (h : Heap) (r : Nat) (visited : List Nat)
    (hnew : r ∉ visited) :
    checkForVideoIdRun h (.object r) visited =
        priorityOrder h (checkForVideoIdRun h) r visited ∧
      (∀ videoId, (directCandidates h (.object r)).find? isValidVideoId = some videoId →
        checkForVideoIdRun h (.object r) visited = some (videoId, r :: visited)) ∧
      ((directCandidates h (.object r)).find? isValidVideoId = none →
        checkForVideoIdRun h (.object r) visited =
          firstNonNull (checkForVideoIdRun h)
            (((entries h r).map Prod.snd).filter isObject) (r :: visited)) := by
  have heq := checkForVideoIdRun_enter h r visited hnew
  refine ⟨heq, ?_, ?_⟩
  · intro videoId hfind
    rw [heq, priorityOrder, hfind]
  · intro hfind
    rw [heq, priorityOrder, hfind]

theorem checkForVideoId_priority_witness :
    (0 : Nat) ∉ ([] : List Nat) ∧
      checkForVideoIdRun
          [[(lit "deep", .object 1), (lit "videoId", .string (lit "dQw4w9WgXcQ"))],
           [(lit "videoId", .string (lit "abcdefgh123"))]] (.object 0) [] =
        some (.string (lit "dQw4w9WgXcQ"), [0]) :=
  ⟨by decide, (checkForVideoId_priority _ 0 [] (by decide)).2.1 _ (by decide)⟩

theorem checkForVideoId_eq (h : Heap) (root : JSVal) :
    ∃ result visited, checkForVideoIdRun h root [] = some (result, visited) ∧
      checkForVideoId h root = result := by
  obtain ⟨⟨result, visited⟩, hrun⟩ := checkForVideoIdAux_total h (h.length + 1) root []
    (Nat.lt_succ_of_le (unvisitedCount_le_length h []))
  refine ⟨result, visited, hrun, ?_⟩
  unfold checkForVideoId
  unfold checkForVideoIdRun
  rw [hrun]

theorem checkForVideoId_null_or_valid (h : Heap) (root : JSVal) :
    checkForVideoId h root = .null ∨ isValidVideoId (checkForVideoId h root) = true := by
  obtain ⟨result, visited, hrun, heq⟩ := checkForVideoId_eq h root
  rw [heq]
  exact (checkForVideoIdAux_sound h _ root [] result visited hrun).1

/-- C3. On every heap, cyclic or not, and every root, the search started with an empty visited
set returns: the depth budget of the model never runs out and any larger budget gives the
same result; no object is entered twice (a visited object is answered with null at once, and
the list of entered objects has no duplicate); the result is null or a valid identifier; and
a root that is not an object gives null with nothing entered and no nested call. -/
theorem checkForVideoId_terminates (h : Heap) (root : JSVal) :
    (∃ result visited, checkForVideoIdRun h root [] = some (result, visited) ∧
        (∀ fuel, h.length + 1 ≤ fuel →
          checkForVideoIdAux h fuel root [] = some (result, visited)) ∧
        checkForVideoId h root = result ∧ visited.Nodup ∧
        (result = .null ∨ isValidVideoId result = true)) ∧
      (∀ fuel r visited, r ∈ visited →
        checkForVideoIdAux h (fuel + 1) (.object r) visited = some (.null, visited)) ∧
      (isObject root = false →
        checkForVideoIdAux h 1 root [] = some (.null, []) ∧ checkForVideoId h root = .null) := by
  refine ⟨?_, ?_, ?_⟩
  · obtain ⟨result, visited, hrun, heq⟩ := checkForVideoId_eq h root
    obtain ⟨hres, _, hnd⟩ := checkForVideoIdAux_sound h _ root [] result visited hrun
    exact ⟨result, visited, hrun,
      fun fuel hle => checkForVideoIdAux_fuel_le h _ fuel hle root [] _ hrun, heq,
      hnd List.nodup_nil, hres⟩
  · intro fuel r visited hr
    have hc : visited.contains r = true := by simpa using hr
    simp only [checkForVideoIdAux, hc, if_true]
  · intro hobj
    have h1 : ∀ fuel, checkForVideoIdAux h (fuel + 1) root [] = some (.null, []) := by
      intro fuel
      cases root <;> first | rfl | simp [isObject] at hobj
    refine ⟨h1 0, ?_⟩
    unfold checkForVideoId checkForVideoIdRun
    rw [h1]

theorem checkForVideoId_terminates_witness :
    isObject (.string (lit "dQw4w9WgXcQ")) = false ∧
      checkForVideoId denylistedHeap (.string (lit "dQw4w9WgXcQ")) = .null ∧
      checkForVideoIdRun denylistedHeap (.object 0) [] = some (.null, [1, 0]) :=
  ⟨by decide, ((checkForVideoId_terminates _ _).2.2 (by decide)).2, by decide⟩

theorem NullOrValid.not_truthy {v : JSVal} (hv : NullOrValid v)
    (hinv : isValidVideoId v = false) : truthy v = false := by
  rcases hv with rfl | hv
  · rfl
  · rw [hv] at hinv
    exact absurd hinv (by decide)

theorem NullOrValid.eq_null {v : JSVal} (hv : NullOrValid v)
    (hinv : isValidVideoId v = false) : v = .null := by
  rcases hv with rfl | hv
  · rfl
  · rw [hv] at hinv
    exact absurd hinv (by decide)

theorem strategy1_nullOrValid (h : Heap) (item : QueueItem) (v : JSVal) (hv : NullOrValid v) :
    NullOrValid (strategy1 h item v) := by
  unfold strategy1
  simp only
  split
  · exact checkForVideoId_null_or_valid h _
  · exact hv

theorem strategy2_nullOrValid (h : Heap) (item : QueueItem) (v : JSVal) (hv : NullOrValid v) :
    NullOrValid (strategy2 h item v) := by
  unfold strategy2
  split
  · split
    · simp only
      split
      · exact checkForVideoId_null_or_valid h _
      · exact hv
    · exact hv
  · exact hv

theorem strategy3Loop_nullOrValid (h : Heap) (els : List Element) :
    ∀ v, NullOrValid v → NullOrValid (strategy3Loop h els v) := by
  induction els with
  | nil =>
    intro v hv
    exact hv
  | cons el rest ih =>
    intro v hv
    simp only [strategy3Loop]
    split
    · apply ih
      split
      · exact checkForVideoId_null_or_valid h _
      · exact hv
    · exact hv

theorem strategy3_nullOrValid (h : Heap) (item : QueueItem) (v : JSVal) (hv : NullOrValid v) :
    NullOrValid (strategy3 h item v) := by
  unfold strategy3
  split
  · exact strategy3Loop_nullOrValid h _ v hv
  · exact hv

theorem strategy4Loop_nullOrValid (els : List Element) :
    ∀ v, NullOrValid v → NullOrValid (strategy4Loop els v) := by
  induction els with
  | nil =>
    intro v hv
    exact hv
  | cons el rest ih =>
    intro v hv
    simp only [strategy4Loop]
    split
    · split
      · split
        · rename_i hvalid
          exact Or.inr hvalid
        · exact ih v hv
      · exact ih v hv
    · exact ih v hv

theorem strategy4_nullOrValid (item : QueueItem) (v : JSVal) (hv : NullOrValid v) :
    NullOrValid (strategy4 item v) := by
  unfold strategy4
  split
  · exact strategy4Loop_nullOrValid _ v hv
  · exact hv

theorem strategy5Loop_nullOrValid (els : List Element) :
    ∀ v, NullOrValid v → NullOrValid (strategy5Loop els v) := by
  induction els with
  | nil =>
    intro v hv
    exact hv
  | cons el rest ih =>
    intro v hv
    simp only [strategy5Loop]
    split
    · rename_i hcond
      rw [Bool.and_eq_true] at hcond
      exact Or.inr hcond.2
    · exact ih v hv

theorem strategy5_nullOrValid (item : QueueItem) (v : JSVal) (hv : NullOrValid v) :
    NullOrValid (strategy5 item v) := by
  unfold strategy5
  split
  · exact strategy5Loop_nullOrValid _ v hv
  · exact hv

theorem resolveVideoId_nullOrValid (h : Heap) (item : QueueItem) :
    NullOrValid (resolveVideoId h item) := by
  unfold resolveVideoId
  exact strategy5_nullOrValid _ _ (strategy4_nullOrValid _ _ (strategy3_nullOrValid h _ _
    (strategy2_nullOrValid h _ _ (strategy1_nullOrValid h _ _ (Or.inl rfl)))))

theorem strategy2_of_valid (h : Heap) (item : QueueItem) (v : JSVal)
    (hv : isValidVideoId v = true) : strategy2 h item v = v := by
  simp [strategy2, isValidVideoId_truthy v hv]

theorem strategy3_of_valid (h : Heap) (item : QueueItem) (v : JSVal)
    (hv : isValidVideoId v = true) : strategy3 h item v = v := by
  simp [strategy3, isValidVideoId_truthy v hv]

theorem strategy4_of_valid (item : QueueItem) (v : JSVal)
    (hv : isValidVideoId v = true) : strategy4 item v = v := by
  simp [strategy4, isValidVideoId_truthy v hv]

theorem strategy5_of_valid (item : QueueItem) (v : JSVal)
    (hv : isValidVideoId v = true) : strategy5 item v = v := by
  simp [strategy5, isValidVideoId_truthy v hv]

theorem resolveVideoId_eq_firstValid (h : Heap) (item : QueueItem) :
    resolveVideoId h item =
      firstValid [yield1 h item, yield2 h item, yield3 h item, yield4 item, yield5 item] := by
  have n1 : NullOrValid (yield1 h item) := strategy1_nullOrValid h item _ (Or.inl rfl)
  have n2 : NullOrValid (yield2 h item) := strategy2_nullOrValid h item _ (Or.inl rfl)
  have n3 : NullOrValid (yield3 h item) := strategy3_nullOrValid h item _ (Or.inl rfl)
  have n4 : NullOrValid (yield4 item) := strategy4_nullOrValid item _ (Or.inl rfl)
  have n5 : NullOrValid (yield5 item) := strategy5_nullOrValid item _ (Or.inl rfl)
  unfold resolveVideoId
  simp only [firstValid]
  change strategy5 item (strategy4 item (strategy3 h item (strategy2 h item (yield1 h item)))) = _
  cases h1 : isValidVideoId (yield1 h item) with
  | true =>
    simp only [if_true]
    rw [strategy2_of_valid h item _ h1, strategy3_of_valid h item _ h1,
      strategy4_of_valid item _ h1, strategy5_of_valid item _ h1]
  | false =>
    rw [n1.eq_null h1]
    change strategy5 item (strategy4 item (strategy3 h item (yield2 h item))) = _
    cases h2 : isValidVideoId (yield2 h item) with
    | true =>
      simp only [if_true, Bool.false_eq_true, if_false]
      rw [strategy3_of_valid h item _ h2, strategy4_of_valid item _ h2,
        strategy5_of_valid item _ h2]
    | false =>
      rw [n2.eq_null h2]
      change strategy5 item (strategy4 item (yield3 h item)) = _
      cases h3 : isValidVideoId (yield3 h item) with
      | true =>
        simp only [if_true, Bool.false_eq_true, if_false]
        rw [strategy4_of_valid item _ h3, strategy5_of_valid item _ h3]
      | false =>
        rw [n3.eq_null h3]
        change strategy5 item (yield4 item) = _
        cases h4 : isValidVideoId (yield4 item) with
        | true =>
          simp only [if_true, Bool.false_eq_true, if_false]
          rw [strategy5_of_valid item _ h4]
        | false =>
          rw [n4.eq_null h4]
          change yield5 item = _
          cases h5 : isValidVideoId (yield5 item) with
          | true => simp only [if_true, Bool.false_eq_true, if_false]
          | false =>
            simp only [Bool.false_eq_true, if_false]
            exact n5.eq_null h5

theorem buildResult_videoId (title artist : JSString) (v : JSVal) (hv : NullOrValid v) :
    (buildResult title artist v).videoId = v := by
  unfold buildResult
  rcases hv with rfl | hv
  · rfl
  · simp [isValidVideoId_truthy v hv, hv]

theorem processItem_videoId (h : Heap) (item : QueueItem) :
    (processItem h item).videoId = resolveVideoId h item :=
  buildResult_videoId _ _ _ (resolveVideoId_nullOrValid h item)

theorem foldl_push_eq {α β : Type} (f : α → β) (xs : List α) :
    ∀ acc : List β, xs.foldl (fun links x => links ++ [f x]) acc = acc ++ xs.map f := by
  induction xs with
  | nil =>
    intro acc
    simp
  | cons x rest ih =>
    intro acc
    simp [List.foldl_cons, ih]

theorem extractLinks_eq_map (h : Heap) (items : List QueueItem) :
    extractLinks h items = items.map (processItem h) := by
  unfold extractLinks
  rw [foldl_push_eq]
  rfl

theorem watchUrl_ne_notFound (s : JSString) :
    lit "https://www.youtube.com/watch?v=" ++ s ≠ lit "[VIDEO_ID_NOT_FOUND]" := by
  have h1 : lit "https://www.youtube.com/watch?v=" = 104 :: lit "ttps://www.youtube.com/watch?v=" := by
    decide
  have h2 : lit "[VIDEO_ID_NOT_FOUND]" = 91 :: lit "VIDEO_ID_NOT_FOUND]" := by decide
  rw [h1, h2]
  intro heq
  injection heq with hhead _
  exact absurd hhead (by decide)

theorem buildResult_url_iff (title artist : JSString) (v : JSVal) :
    (buildResult title artist v).url = lit "[VIDEO_ID_NOT_FOUND]" ↔
      (buildResult title artist v).videoId = .null := by
  unfold buildResult
  split
  · rename_i hcond
    rw [Bool.and_eq_true] at hcond
    constructor
    · intro hurl
      exact absurd hurl (watchUrl_ne_notFound _)
    · intro hnull
      simp only at hnull
      rw [hnull] at hcond
      exact absurd hcond.2 (by decide)
  · simp

/-- C5. The returned list has one result per item, the i-th built from the i-th item, and
every result's identifier is null or a valid identifier, that is a string of exactly 11
characters of `[a-zA-Z0-9_-]`. -/
theorem extractLinks_one_per_item (h : Heap) (items : List QueueItem) :
    (extractLinks h items).length = items.length ∧
      (∀ i, (extractLinks h items).get? i = (items.get? i).map (processItem h)) ∧
      (∀ res ∈ extractLinks h items,
        res.videoId = .null ∨
          (isValidVideoId res.videoId = true ∧
            ∃ s : JSString, res.videoId = .string s ∧ s.length = 11 ∧
              ∀ c ∈ s, isIdChar c = true)) := by
  rw [extractLinks_eq_map]
  refine ⟨List.length_map _ _, ?_, ?_⟩
  · intro i
    simp [List.getElem?_map]
  · intro res hres
    obtain ⟨item, _, rfl⟩ := List.mem_map.mp hres
    rw [processItem_videoId]
    rcases resolveVideoId_nullOrValid h item with hnull | hvalid
    · exact Or.inl hnull
    · refine Or.inr ⟨hvalid, ?_⟩
      cases hv : resolveVideoId h item with
      | string s =>
        rw [hv] at hvalid
        obtain ⟨hlen, _, hcls, _⟩ := (isValidVideoId_string s).mp hvalid
        exact ⟨s, rfl, hlen, hcls⟩
      | _ =>
        rw [hv] at hvalid
        simp [isValidVideoId] at hvalid

/-- C6. An item on which none of the five strategies yields a valid identifier still has its
result, with identifier null and url `[VIDEO_ID_NOT_FOUND]`; and for every item the url is
`[VIDEO_ID_NOT_FOUND]` exactly when the identifier is null. -/
theorem processItem_not_found (h : Heap) (item : QueueItem) :
    (isValidVideoId (yield1 h item) = false → isValidVideoId (yield2 h item) = false →
      isValidVideoId (yield3 h item) = false → isValidVideoId (yield4 item) = false →
      isValidVideoId (yield5 item) = false →
        (processItem h item).videoId = .null ∧
          (processItem h item).url = lit "[VIDEO_ID_NOT_FOUND]" ∧
          extractLinks h [item] = [processItem h item]) ∧
      ((processItem h item).url = lit "[VIDEO_ID_NOT_FOUND]" ↔
        (processItem h item).videoId = .null) := by
  have hiff : (processItem h item).url = lit "[VIDEO_ID_NOT_FOUND]" ↔
      (processItem h item).videoId = .null := buildResult_url_iff _ _ _
  refine ⟨?_, hiff⟩
  intro h1 h2 h3 h4 h5
  have hnull : (processItem h item).videoId = .null := by
    rw [processItem_videoId, resolveVideoId_eq_firstValid]
    simp only [firstValid, h1, h2, h3, h4, h5, Bool.false_eq_true, if_false]
  exact ⟨hnull, hiff.mpr hnull, extractLinks_eq_map h [item]⟩

theorem getProp_single (h : Heap) (r : Nat) (key key' : JSString) (value : JSVal)
    (hr : h.get? r = some [(key', value)]) :
    getProp h (.object r) key = if key == key' then value else .undefined := by
  simp only [getProp, entries, hr, Option.getD_some, List.lookup]
  cases key == key' <;> rfl

theorem getProp_undefined (h : Heap) (key : JSString) :
    getProp h .undefined key = .undefined := rfl

theorem checkForVideoId_nested_endpoint (h : Heap) (r0 r1 r2 r3 : Nat) (V : JSString)
    (h0 : h.get? r0 = some [(lit "a", .object r1)])
    (h1 : h.get? r1 = some [(lit "navigationEndpoint", .object r2)])
    (h2 : h.get? r2 = some [(lit "watchEndpoint", .object r3)])
    (h3 : h.get? r3 = some [(lit "videoId", .string V)])
    (hV : isValidVideoId (.string V) = true) :
    checkForVideoId h (.object r0) = .string V := by
  have hne : r1 ≠ r0 := by
    rintro rfl
    rw [h0] at h1
    simp only [Option.some.injEq, List.cons.injEq, Prod.mk.injEq] at h1
    exact absurd h1.1.1 (by decide)
  have hlen : r0 < h.length := by
    by_contra hge
    rw [List.get?_eq_none.mpr (not_lt.mp hge)] at h0
    exact absurd h0 (by simp)
  have hinner : checkForVideoIdAux h 1 (.object r1) [r0] = some (.string V, [r1, r0]) := by
    rw [checkForVideoIdAux_enter h 0 r1 [r0] (by simpa using hne)]
    have hfind : (directCandidates h (.object r1)).find? isValidVideoId = some (.string V) := by
      simp only [directCandidates, readPath, getProp_single h r1 _ _ _ h1]
      have e1 : (lit "videoId" == lit "navigationEndpoint") = false := by decide
      have e2 : (lit "watchEndpoint" == lit "navigationEndpoint") = false := by decide
      have e3 : (lit "navigationEndpoint" == lit "navigationEndpoint") = true := by decide
      simp only [e1, e2, e3, if_true, Bool.false_eq_true, if_false,
        getProp_single h r2 _ _ _ h2, getProp_single h r3 _ _ _ h3]
      have e4 : (lit "videoId" == lit "watchEndpoint") = false := by decide
      have e5 : (lit "watchEndpoint" == lit "watchEndpoint") = true := by decide
      have e6 : (lit "videoId" == lit "videoId") = true := by decide
      simp only [e4, e5, e6, if_true, Bool.false_eq_true, if_false,
        getProp_single h r3 _ _ _ h3, getProp_undefined, List.find?,
        isValidVideoId_undefined, hV]
    rw [hfind]
  have houter : checkForVideoIdAux h 2 (.object r0) [] = some (.string V, [r1, r0]) := by
    rw [checkForVideoIdAux_enter h 1 r0 [] (by simp)]
    have hfind : (directCandidates h (.object r0)).find? isValidVideoId = none := by
      simp only [directCandidates, readPath, getProp_single h r0 _ _ _ h0]
      have e1 : (lit "videoId" == lit "a") = false := by decide
      have e2 : (lit "watchEndpoint" == lit "a") = false := by decide
      have e3 : (lit "navigationEndpoint" == lit "a") = false := by decide
      simp only [e1, e2, e3, Bool.false_eq_true, if_false, getProp_undefined, List.find?,
        isValidVideoId_undefined]
    rw [hfind]
    simp only [entries, h0, Option.getD_some, searchEntries, isObject, if_true, hinner,
      isValidVideoId_truthy _ hV]
  have hrun : checkForVideoIdRun h (.object r0) [] = some (.string V, [r1, r0]) :=
    checkForVideoIdAux_fuel_le h 2 (h.length + 1) (by omega) _ _ _ houter
  unfold checkForVideoId
  rw [hrun]

theorem textOr_trimmed (el : Element) (placeholder text : JSString)
    (htext : el.innerText = text) (htrim : trim text = text) (hne : text ≠ []) :
    textOr (some el) placeholder = text := by
  unfold textOr
  simp only [htext, htrim]
  cases text with
  | nil => exact absurd rfl hne
  | cons c cs => rfl

/-- C7. An item whose own data is `{a: {navigationEndpoint: {watchEndpoint: {videoId: V}}}}`
with `V` valid, whose title and byline texts are the non-empty trimmed texts `T` and `A`, gives
the result `{title: T, artist: A, url: 'https://www.youtube.com/watch?v=' + V, videoId: V}`. -/
theorem processItem_nested_endpoint (h : Heap) (item : QueueItem) (r0 r1 r2 r3 : Nat)
    (V T A : JSString) (titleEl bylineEl : Element)
    (hdata : item.data = .object r0)
    (h0 : h.get? r0 = some [(lit "a", .object r1)])
    (h1 : h.get? r1 = some [(lit "navigationEndpoint", .object r2)])
    (h2 : h.get? r2 = some [(lit "watchEndpoint", .object r3)])
    (h3 : h.get? r3 = some [(lit "videoId", .string V)])
    (hV : isValidVideoId (.string V) = true)
    (htitle : queryClass item (lit "song-title") = some titleEl)
    (hT : titleEl.innerText = T) (hTtrim : trim T = T) (hTne : T ≠ [])
    (hbyline : queryClass item (lit "byline") = some bylineEl)
    (hA : bylineEl.innerText = A) (hAtrim : trim A = A) (hAne : A ≠ []) :
    processItem h item =
      { title := T, artist := A, url := lit "https://www.youtube.com/watch?v=" ++ V,
        videoId := .string V } := by
  have hy1 : yield1 h item = .string V := by
    unfold yield1 strategy1
    simp only [hdata, jsOr, truthy, if_true]
    exact checkForVideoId_nested_endpoint h r0 r1 r2 r3 V h0 h1 h2 h3 hV
  have hres : resolveVideoId h item = .string V := by
    rw [resolveVideoId_eq_firstValid, firstValid, hy1, hV]
    rfl
  unfold processItem
  simp only [htitle, hbyline, textOr_trimmed titleEl _ T hT hTtrim hTne,
    textOr_trimmed bylineEl _ A hA hAtrim hAne, hres]
  unfold buildResult
  simp only [isValidVideoId_truthy _ hV, hV, Bool.and_self, if_true, templateText]

theorem truthy_null : truthy .null = false := rfl

theorem hrefMatch_watch (V : JSString) (hlen : V.length = 11)
    (hcls : ∀ c ∈ V, isIdChar c = true) :
    hrefMatch (lit "/watch?v=" ++ V) = some V := by
  have hl : lit "/watch?v=" = [47, 119, 97, 116, 99, 104, 63, 118, 61] := by decide
  have htake : List.take 11 V = V := List.take_of_length_le (le_of_eq hlen)
  have hall : V.all isIdChar = true := List.all_eq_true.mpr hcls
  rw [hl]
  simp [hrefMatch, matchWatchAt, htake, hlen, hall]

theorem isWatchAnchor_watch (anchor : Element) (V : JSString) (htag : anchor.tag = lit "a")
    (hhref : anchor.attrs.lookup (lit "href") = some (lit "/watch?v=" ++ V)) :
    isWatchAnchor anchor = true := by
  have hinc : includes (lit "/watch?v=" ++ V) (lit "watch?v=") = true := by
    rw [includes_spec]
    refine ⟨[47], V, ?_⟩
    have : [47] ++ lit "watch?v=" = lit "/watch?v=" := by decide
    rw [this]
  simp [isWatchAnchor, htag, hhref, hinc]

theorem strategy4Loop_append (xs ys : List Element)
    (hxs : strategy4Loop xs .null = .null) :
    strategy4Loop (xs ++ ys) .null = strategy4Loop ys .null := by
  induction xs with
  | nil => rfl
  | cons x rest ih =>
    simp only [List.cons_append, strategy4Loop] at hxs ⊢
    split
    · rename_i href hlook
      simp only [hlook] at hxs
      split
      · rename_i token hmatch
        simp only [hmatch] at hxs
        split
        · rename_i hvalid
          simp only [hvalid, if_true] at hxs
          exact absurd hxs (by simp)
        · rename_i hvalid
          simp only [hvalid] at hxs
          exact ih hxs
      · rename_i hmatch
        simp only [hmatch] at hxs
        exact ih hxs
    · rename_i hlook
      simp only [hlook] at hxs
      exact ih hxs

theorem strategy3Loop_no_data (h : Heap) (els : List Element)
    (hels : ∀ el ∈ els, truthy (jsOr el.data el.dataHost) = false) :
    strategy3Loop h els .null = .null := by
  induction els with
  | nil => rfl
  | cons el rest ih =>
    have hel := hels el (List.mem_cons_self _ _)
    simp only [strategy3Loop, truthy_null, Bool.not_false, if_true, hel, Bool.false_eq_true, if_false]
    exact ih (fun e he => hels e (List.mem_cons_of_mem _ he))

/-- C8, as amended. An item with no attached data on itself or on any descendant (its play
button included), one of whose anchors has the href `/watch?v=` followed by a valid
identifier `V`, no watch-link anchor before it yielding a valid identifier, gets `V` from the
href strategy: the pattern captures `V` and the captured token is validated. -/
theorem processItem_href (h : Heap) (item : QueueItem) (V : JSString)
    (before after : List Element) (anchor : Element)
    (hV : isValidVideoId (.string V) = true)
    (hitem : truthy (jsOr item.data item.dataHost) = false)
    (hdesc : ∀ el ∈ item.descendants, truthy (jsOr el.data el.dataHost) = false)
    (hsplit : item.descendants = before ++ anchor :: after)
    (hbefore : strategy4Loop (before.filter isWatchAnchor) .null = .null)
    (htag : anchor.tag = lit "a")
    (hhref : anchor.attrs.lookup (lit "href") = some (lit "/watch?v=" ++ V)) :
    hrefMatch (lit "/watch?v=" ++ V) = some V ∧
      yield1 h item = .null ∧ yield2 h item = .null ∧ yield3 h item = .null ∧
      yield4 item = .string V ∧ (processItem h item).videoId = .string V := by
  obtain ⟨hlen, _, hcls, _⟩ := (isValidVideoId_string V).mp hV
  have hmatch := hrefMatch_watch V hlen hcls
  have hy1 : yield1 h item = .null := by
    simp only [yield1, strategy1, hitem, Bool.false_eq_true, if_false]
  have hy2 : yield2 h item = .null := by
    unfold yield2 strategy2
    simp only [truthy_null, Bool.not_false, if_true]
    split
    · rename_i playButton hfind
      have hmem : playButton ∈ item.descendants := List.mem_of_find?_eq_some hfind
      simp only [hdesc playButton hmem, Bool.false_eq_true, if_false]
    · rfl
  have hy3 : yield3 h item = .null := by
    unfold yield3 strategy3
    simp only [truthy_null, Bool.not_false, if_true]
    exact strategy3Loop_no_data h _ hdesc
  have hy4 : yield4 item = .string V := by
    unfold yield4 strategy4
    simp only [truthy_null, Bool.not_false, if_true, hsplit, List.filter_append, List.filter_cons,
      isWatchAnchor_watch anchor V htag hhref]
    rw [strategy4Loop_append _ _ hbefore]
    simp only [strategy4Loop, hhref, hmatch, hV, if_true]
  refine ⟨hmatch, hy1, hy2, hy3, hy4, ?_⟩
  rw [processItem_videoId, resolveVideoId_eq_firstValid]
  simp only [firstValid, hy1, hy2, hy3, hy4, hV, if_true]
  rfl

theorem processItem_not_found_witness :
    (processItem denylistedHeap denylistedItem).videoId = .null ∧
      (processItem denylistedHeap denylistedItem).url = lit "[VIDEO_ID_NOT_FOUND]" :=
  have hres := (processItem_not_found denylistedHeap denylistedItem).1
    (by decide) (by decide) (by decide) (by decide) (by decide)
  ⟨hres.1, hres.2.1⟩

theorem processItem_nested_endpoint_witness :
    processItem nestedEndpointHeap nestedEndpointItem =
      { title := lit "Never Gonna Give You Up", artist := lit "Rick Astley",
        url := lit "https://www.youtube.com/watch?v=dQw4w9WgXcQ",
        videoId := .string (lit "dQw4w9WgXcQ") } :=
  processItem_nested_endpoint nestedEndpointHeap nestedEndpointItem 0 1 2 3
    (lit "dQw4w9WgXcQ") (lit "Never Gonna Give You Up") (lit "Rick Astley")
    exampleTitle exampleByline rfl rfl rfl rfl rfl (by decide) (by decide) rfl (by decide)
    (by decide) (by decide) rfl (by decide) (by decide)

theorem processItem_href_witness :
    hrefMatch (lit "/watch?v=abcdefgh123") = some (lit "abcdefgh123") ∧
      (processItem [] hrefItem).videoId = .string (lit "abcdefgh123") :=
  have hres := processItem_href [] hrefItem (lit "abcdefgh123") [] [] exampleAnchor
    (by decide) (by decide) (by decide) rfl (by decide) (by decide) (by decide)
  ⟨hres.1, hres.2.2.2.2.2⟩

/-- C11. A string containing one of the denylisted substrings `style-scope`, `yt-spec-icon`,
`css-build`, `dom-if`, `template`, `polymer` is never a valid identifier, whatever its length
and characters. -/
theorem isValidVideoId_denylisted (s fp : JSString)
    (hfp : fp ∈ [lit "style-scope", lit "yt-spec-icon", lit "css-build", lit "dom-if",
      lit "template", lit "polymer"])
    (hin : fp <:+: s) :
    isValidVideoId (.string s) = false := by
  cases hv : isValidVideoId (.string s) with
  | false => rfl
  | true => exact absurd hin (((isValidVideoId_string s).mp hv).2.1 fp hfp)

theorem isValidVideoId_denylisted_witness :
    lit "polymer" <:+: lit "abcdpolymer" ∧ isValidVideoId (.string (lit "abcdpolymer")) = false :=
  ⟨⟨lit "abcd", [], by decide⟩,
    isValidVideoId_denylisted (lit "abcdpolymer") (lit "polymer") (by decide)
      ⟨lit "abcd", [], by decide⟩⟩

theorem buildResult_title (title artist : JSString) (v : JSVal) :
    (buildResult title artist v).title = title := by
  unfold buildResult
  split <;> rfl

theorem buildResult_artist (title artist : JSString) (v : JSVal) :
    (buildResult title artist v).artist = artist := by
  unfold buildResult
  split <;> rfl

theorem textOr_none (placeholder : JSString) : textOr none placeholder = placeholder := rfl

theorem textOr_empty (el : Element) (placeholder : JSString) (hempty : trim el.innerText = []) :
    textOr (some el) placeholder = placeholder := by
  simp [textOr, hempty]

theorem textOr_nonempty (el : Element) (placeholder : JSString)
    (hne : trim el.innerText ≠ []) : textOr (some el) placeholder = trim el.innerText := by
  have hfalse : (trim el.innerText).isEmpty = false := by
    cases ht : trim el.innerText with
    | nil => exact absurd ht hne
    | cons c cs => rfl
  simp [textOr, hfalse]

/-- C12. A missing title element, or a title text empty after trimming, gives the title
`[No Title]`; a missing artist element, or an artist text empty after trimming, gives the artist
`[No Artist]`; otherwise title and artist are the trimmed texts; and the item has its result
in every case. -/
theorem processItem_placeholders (h : Heap) (item : QueueItem) :
    (queryClass item (lit "song-title") = none →
        (processItem h item).title = lit "[No Title]") ∧
      (∀ el, queryClass item (lit "song-title") = some el → trim el.innerText = [] →
        (processItem h item).title = lit "[No Title]") ∧
      (∀ el, queryClass item (lit "song-title") = some el → trim el.innerText ≠ [] →
        (processItem h item).title = trim el.innerText) ∧
      (queryClass item (lit "byline") = none →
        (processItem h item).artist = lit "[No Artist]") ∧
      (∀ el, queryClass item (lit "byline") = some el → trim el.innerText = [] →
        (processItem h item).artist = lit "[No Artist]") ∧
      (∀ el, queryClass item (lit "byline") = some el → trim el.innerText ≠ [] →
        (processItem h item).artist = trim el.innerText) ∧
      extractLinks h [item] = [processItem h item] := by
  have ht : (processItem h item).title =
      textOr (queryClass item (lit "song-title")) (lit "[No Title]") := buildResult_title _ _ _
  have ha : (processItem h item).artist =
      textOr (queryClass item (lit "byline")) (lit "[No Artist]") := buildResult_artist _ _ _
  refine ⟨?_, ?_, ?_, ?_, ?_, ?_, extractLinks_eq_map h [item]⟩
  · intro hq
    rw [ht, hq, textOr_none]
  · intro el hq hempty
    rw [ht, hq, textOr_empty el _ hempty]
  · intro el hq hne
    rw [ht, hq, textOr_nonempty el _ hne]
  · intro hq
    rw [ha, hq, textOr_none]
  · intro el hq hempty
    rw [ha, hq, textOr_empty el _ hempty]
  · intro el hq hne
    rw [ha, hq, textOr_nonempty el _ hne]

theorem processItem_placeholders_witness :
    queryClass blankItem (lit "song-title") = none ∧
      (processItem [] blankItem).title = lit "[No Title]" ∧
      (processItem [] blankItem).artist = lit "[No Artist]" :=
  ⟨by decide, (processItem_placeholders [] blankItem).1 (by decide),
    (processItem_placeholders [] blankItem).2.2.2.2.1 blankByline (by decide) (by decide)⟩

theorem joinWith_eq_intercalate (sep : JSString) (xs : List JSString) :
    joinWith sep xs = List.intercalate sep xs := by
  induction xs with
  | nil => rfl
  | cons x rest ih =>
    cases rest with
    | nil => simp [joinWith, List.intercalate]
    | cons y rest' =>
      rw [joinWith, ih]
      simp [List.intercalate, List.intersperse]

theorem clipboardEntry_eq_paragraph (l : ExtractionResult) (hv : NullOrValid l.videoId) :
    clipboardEntry l = paragraph l := by
  unfold clipboardEntry paragraph
  rcases hv with hnull | hvalid
  · rw [hnull]
    simp [truthy]
  · have ht := isValidVideoId_truthy _ hvalid
    cases hid : l.videoId with
    | string s =>
      rw [hid] at ht
      have hsplit : lit "\nVideo ID: " = lit "\n" ++ lit "Video ID: " := by decide
      simp only [ht, if_true, templateText, hsplit, List.append_assoc]
    | _ =>
      rw [hid] at hvalid
      simp [isValidVideoId] at hvalid

theorem extractLinks_nullOrValid (h : Heap) (items : List QueueItem) :
    ∀ l ∈ extractLinks h items, NullOrValid l.videoId := by
  intro l hl
  rw [extractLinks_eq_map] at hl
  obtain ⟨item, _, rfl⟩ := List.mem_map.mp hl
  rw [processItem_videoId]
  exact resolveVideoId_nullOrValid h item

theorem clipboardText_eq (links : List ExtractionResult)
    (hlinks : ∀ l ∈ links, NullOrValid l.videoId) :
    clipboardText links = List.intercalate (lit "\n\n") (links.map paragraph) := by
  unfold clipboardText
  rw [joinWith_eq_intercalate]
  congr 1
  exact List.map_congr_left (fun l hl => clipboardEntry_eq_paragraph l (hlinks l hl))

/-- C13. For a list of results whose identifiers are null or valid, as every list the script
builds is, the clipboard text is the results' paragraphs, one per result and in result order,
joined by one blank line; a paragraph is `title - artist`, a newline, the url and, only when
the identifier is not null, a newline and `Video ID: ` with the identifier; the empty list
gives the empty text. -/
theorem clipboardText_paragraphs (h : Heap) (items : List QueueItem)
    (links : List ExtractionResult)
    (hlinks : ∀ l ∈ links, l.videoId = .null ∨ isValidVideoId l.videoId = true) :
    clipboardText links = List.intercalate (lit "\n\n") (links.map paragraph) ∧
      (links.map paragraph).length = links.length ∧
      clipboardText (extractLinks h items) =
        List.intercalate (lit "\n\n") ((extractLinks h items).map paragraph) ∧
      clipboardText [] = [] :=
  ⟨clipboardText_eq links hlinks, List.length_map _ _,
    clipboardText_eq _ (extractLinks_nullOrValid h items), rfl⟩

theorem clipboardText_paragraphs_witness :
    clipboardText
        [processItem nestedEndpointHeap nestedEndpointItem,
         processItem denylistedHeap denylistedItem] =
      lit ("Never Gonna Give You Up - Rick Astley\n" ++
        "https://www.youtube.com/watch?v=dQw4w9WgXcQ\nVideo ID: dQw4w9WgXcQ\n\n" ++
        "[No Title] - [No Artist]\n[VIDEO_ID_NOT_FOUND]") :=
  ((clipboardText_paragraphs [] []
    [processItem nestedEndpointHeap nestedEndpointItem,
     processItem denylistedHeap denylistedItem] (by decide)).1).trans (by decide)

theorem includes_false_of_length_lt (s needle : JSString) (hlt : s.length < needle.length) :
    includes s needle = false := by
  cases hinc : includes s needle with
  | false => rfl
  | true =>
    have hle := ((includes_spec s needle).mp hinc).length_le
    omega

theorem includes_style_of_styleScope (s : JSString)
    (hinc : includes s (lit "style-scope") = true) : includes s (lit "style") = true := by
  rw [includes_spec] at hinc ⊢
  have hpre : lit "style" <:+: lit "style-scope" := ⟨[], lit "-scope", by decide⟩
  exact hpre.trans hinc

/-- C18. The validator gives the same answer with the denylist entries `style-scope` and
`yt-spec-icon` removed: `yt-spec-icon` has 12 characters and cannot occur in a string of
length 11, and a string containing `style-scope` contains `style`, which is rejected anyway. -/
theorem isValidVideoId_reduced_denylist (v : JSVal) :
    isValidVideoId v =
        isValidVideoIdWith [lit "css-build", lit "dom-if", lit "template", lit "polymer"] v ∧
      isValidVideoId v =
        isValidVideoIdWith [lit "style-scope", lit "yt-spec-icon", lit "css-build",
          lit "dom-if", lit "template", lit "polymer"] v ∧
      (lit "yt-spec-icon").length = 12 ∧
      (∀ s : JSString, lit "style-scope" <:+: s → lit "style" <:+: s) := by
  refine ⟨?_, rfl, by decide, ?_⟩
  · cases v with
    | string s =>
      unfold isValidVideoId isValidVideoIdWith
      by_cases hlen : s.length = 11
      · have hicon : includes s (lit "yt-spec-icon") = false := by
          apply includes_false_of_length_lt
          rw [hlen]
          decide
        have hstyle := includes_style_of_styleScope s
        simp only [falsePositives, List.any_cons, List.any_nil, hicon, Bool.false_or,
          Bool.or_false]
        cases hss : includes s (lit "style-scope") with
        | false => simp
        | true => simp [hstyle hss]
      · have hne : (s.length != 11) = true := by simpa using hlen
        simp [hne]
    | _ => rfl
  · intro s hin
    have hpre : lit "style" <:+: lit "style-scope" := ⟨[], lit "-scope", by decide⟩
    exact hpre.trans hin

theorem attribute_vid_some (el : Element) (s : JSString)
    (hfirst : firstNonEmptyAttribute el = some s) :
    jsOr (jsOr (getAttribute el (lit "data-video-id")) (getAttribute el (lit "data-videoid")))
      (getAttribute el (lit "videoid")) = .string s := by
  unfold firstNonEmptyAttribute at hfirst
  unfold getAttribute jsOr
  rcases ha : el.attrs.lookup (lit "data-video-id") with _ | (_ | ⟨c, cs⟩) <;>
    rcases hb : el.attrs.lookup (lit "data-videoid") with _ | (_ | ⟨d, ds⟩) <;>
    rcases hc : el.attrs.lookup (lit "videoid") with _ | (_ | ⟨e, es⟩) <;>
    simp [ha, hb, hc, List.find?] at hfirst <;>
    subst hfirst <;>
    simp [truthy]

theorem attribute_vid_none (el : Element) (hfirst : firstNonEmptyAttribute el = none) :
    truthy (jsOr (jsOr (getAttribute el (lit "data-video-id"))
      (getAttribute el (lit "data-videoid"))) (getAttribute el (lit "videoid"))) = false := by
  unfold firstNonEmptyAttribute at hfirst
  unfold getAttribute jsOr
  rcases ha : el.attrs.lookup (lit "data-video-id") with _ | (_ | ⟨c, cs⟩) <;>
    rcases hb : el.attrs.lookup (lit "data-videoid") with _ | (_ | ⟨d, ds⟩) <;>
    rcases hc : el.attrs.lookup (lit "videoid") with _ | (_ | ⟨e, es⟩) <;>
    simp [ha, hb, hc, List.find?] at hfirst <;>
    simp [truthy]

theorem strategy5Loop_skip (el : Element) (rest : List Element) (s : JSString)
    (hfirst : firstNonEmptyAttribute el = some s)
    (hinvalid : isValidVideoId (.string s) = false) :
    strategy5Loop (el :: rest) .null = strategy5Loop rest .null := by
  simp only [strategy5Loop, attribute_vid_some el s hfirst, hinvalid, Bool.and_false,
    Bool.false_eq_true, if_false]

theorem strategy5Loop_eq (els : List Element) :
    strategy5Loop els .null = firstValidAttribute els := by
  induction els with
  | nil => rfl
  | cons el rest ih =>
    cases hfirst : firstNonEmptyAttribute el with
    | none =>
      have hfalsy := attribute_vid_none el hfirst
      simp only [strategy5Loop, hfalsy, Bool.false_and, Bool.false_eq_true, if_false, ih,
        firstValidAttribute, List.filterMap_cons, hfirst]
    | some s =>
      cases hvalid : isValidVideoId (.string s) with
      | false =>
        rw [strategy5Loop_skip el rest s hfirst hvalid, ih]
        simp only [firstValidAttribute, List.filterMap_cons, hfirst, List.find?_cons, hvalid]
      | true =>
        have htruthy := isValidVideoId_truthy _ hvalid
        simp only [strategy5Loop, attribute_vid_some el s hfirst, hvalid, htruthy,
          Bool.and_self, if_true, firstValidAttribute, List.filterMap_cons, hfirst,
          List.find?_cons]

theorem yield5_eq (item : QueueItem) :
    yield5 item = firstValidAttribute (item.descendants.filter hasIdAttribute) := by
  unfold yield5 strategy5
  simp only [truthy_null, Bool.not_false, if_true]
  exact strategy5Loop_eq _

/-- C15. Strategy 5 walks the selected elements in document order, takes on each only the
first non-empty value among `data-video-id`, `data-videoid`, `videoid`, and returns the first
such value that is valid; an element whose first non-empty value is invalid is passed over,
whatever its other attributes, and the scan goes on with the next element. -/
theorem strategy5_first_attribute (h : Heap) (item : QueueItem) :
    yield5 item = firstValidAttribute (item.descendants.filter hasIdAttribute) ∧
      (isValidVideoId (yield1 h item) = false → isValidVideoId (yield2 h item) = false →
        isValidVideoId (yield3 h item) = false → isValidVideoId (yield4 item) = false →
          (processItem h item).videoId =
            firstValidAttribute (item.descendants.filter hasIdAttribute)) ∧
      (∀ (el : Element) (rest : List Element) (s : JSString),
        firstNonEmptyAttribute el = some s → isValidVideoId (.string s) = false →
          strategy5Loop (el :: rest) .null = strategy5Loop rest .null) := by
  refine ⟨yield5_eq item, ?_, fun el rest s => strategy5Loop_skip el rest s⟩
  intro h1 h2 h3 h4
  rw [processItem_videoId, resolveVideoId_eq_firstValid]
  simp only [firstValid, h1, h2, h3, h4, Bool.false_eq_true, if_false]
  have hn5 : NullOrValid (yield5 item) := strategy5_nullOrValid item _ (Or.inl rfl)
  rw [← yield5_eq]
  cases h5 : isValidVideoId (yield5 item) with
  | true => simp
  | false =>
    simp only [Bool.false_eq_true, if_false]
    exact (hn5.eq_null h5).symm

theorem strategy5_first_attribute_witness :
    firstNonEmptyAttribute shadowedElement = some (lit "style-scope") ∧
      (processItem [] attributeItem).videoId = .string (lit "abcdefgh123") :=
  ⟨by decide,
    ((strategy5_first_attribute [] attributeItem).2.1 (by decide) (by decide) (by decide)
      (by decide)).trans (by decide)⟩

theorem hrefMatch_watch_take (t : JSString) (hlen : 11 ≤ t.length)
    (hcls : ∀ c ∈ t.take 11, isIdChar c = true) :
    hrefMatch (lit "/watch?v=" ++ t) = some (t.take 11) := by
  have hl : lit "/watch?v=" = [47, 119, 97, 116, 99, 104, 63, 118, 61] := by decide
  have htake : (List.take 11 t).length = 11 := by
    rw [List.length_take]
    omega
  have hall : (List.take 11 t).all isIdChar = true := List.all_eq_true.mpr hcls
  rw [hl]
  simp [hrefMatch, matchWatchAt, htake, hall]

theorem yield4_first_anchor (item : QueueItem) (before after : List Element)
    (anchor : Element) (href token : JSString)
    (hsplit : item.descendants = before ++ anchor :: after)
    (hbefore : strategy4Loop (before.filter isWatchAnchor) .null = .null)
    (hsel : isWatchAnchor anchor = true)
    (hhref : anchor.attrs.lookup (lit "href") = some href)
    (hmatch : hrefMatch href = some token)
    (hvalid : isValidVideoId (.string token) = true) :
    yield4 item = .string token := by
  unfold yield4 strategy4
  simp only [truthy_null, Bool.not_false, if_true, hsplit, List.filter_append,
    List.filter_cons, hsel]
  rw [strategy4Loop_append _ _ hbefore]
  simp only [strategy4Loop, hhref, hmatch, hvalid, if_true]

/-- C16. When the href strategy resolves an item from the anchor address `/watch?v=` followed
by a token `t` of 12 or more characters whose first 11 characters form a valid identifier,
the item's identifier is these first 11 characters: the pattern is not anchored after the
token, so the longer token is cut to 11 characters, whatever follows them, not rejected. -/
theorem processItem_href_truncates (h : Heap) (item : QueueItem) (t : JSString)
    (before after : List Element) (anchor : Element)
    (hlen : 12 ≤ t.length)
    (hvalid : isValidVideoId (.string (t.take 11)) = true)
    (h1 : isValidVideoId (yield1 h item) = false)
    (h2 : isValidVideoId (yield2 h item) = false)
    (h3 : isValidVideoId (yield3 h item) = false)
    (hsplit : item.descendants = before ++ anchor :: after)
    (hbefore : strategy4Loop (before.filter isWatchAnchor) .null = .null)
    (htag : anchor.tag = lit "a")
    (hhref : anchor.attrs.lookup (lit "href") = some (lit "/watch?v=" ++ t)) :
    hrefMatch (lit "/watch?v=" ++ t) = some (t.take 11) ∧
      yield4 item = .string (t.take 11) ∧
      (processItem h item).videoId = .string (t.take 11) ∧
      (t.take 11).length = 11 ∧ t.take 11 ≠ t := by
  obtain ⟨hlen11, _, hcls, _⟩ := (isValidVideoId_string _).mp hvalid
  have hmatch := hrefMatch_watch_take t (by omega) hcls
  have hy4 := yield4_first_anchor item before after anchor _ _ hsplit hbefore
    (isWatchAnchor_watch anchor t htag hhref) hhref hmatch hvalid
  refine ⟨hmatch, hy4, ?_, hlen11, ?_⟩
  · rw [processItem_videoId, resolveVideoId_eq_firstValid]
    simp only [firstValid, h1, h2, h3, hy4, hvalid, Bool.false_eq_true, if_false, if_true]
  · intro heq
    rw [heq] at hlen11
    omega

theorem processItem_href_truncates_witness :
    (processItem []
        { data := .undefined, dataHost := .undefined,
          descendants := [longTokenAnchor] }).videoId = .string (lit "abcdefgh123") :=
  (processItem_href_truncates []
    { data := .undefined, dataHost := .undefined, descendants := [longTokenAnchor] }
    (lit "abcdefgh123XYZ") [] [] longTokenAnchor (by decide) (by decide) (by decide)
    (by decide) (by decide) rfl (by decide) (by decide) (by decide)).2.2.1

theorem yield2_no_data (h : Heap) (item : QueueItem)
    (hdesc : ∀ el ∈ item.descendants, truthy (jsOr el.data el.dataHost) = false) :
    yield2 h item = .null := by
  unfold yield2 strategy2
  simp only [truthy_null, Bool.not_false, if_true]
  split
  · rename_i playButton hfind
    have hmem : playButton ∈ item.descendants := List.mem_of_find?_eq_some hfind
    simp only [hdesc playButton hmem, Bool.false_eq_true, if_false]
  · rfl

theorem yield3_no_data (h : Heap) (item : QueueItem)
    (hdesc : ∀ el ∈ item.descendants, truthy (jsOr el.data el.dataHost) = false) :
    yield3 h item = .null := by
  unfold yield3 strategy3
  simp only [truthy_null, Bool.not_false, if_true]
  exact strategy3Loop_no_data h _ hdesc

/-- C17. When an item's own `__data` is present, strategy 1 searches `__data` alone, whatever
`__dataHost` is; so if `__data` holds no valid identifier and the item has no data on its
play button or descendants, no matching anchor and no identifier attribute, its identifier
is null, even when `__dataHost` holds a valid identifier. -/
theorem strategy1_ignores_dataHost (h : Heap) (item : QueueItem)
    (hpresent : truthy item.data = true) :
    yield1 h item = checkForVideoId h item.data ∧
      (∀ dataHost : JSVal, yield1 h { item with dataHost := dataHost } = yield1 h item) ∧
      (checkForVideoId h item.data = .null →
        (∀ el ∈ item.descendants, truthy (jsOr el.data el.dataHost) = false) →
        item.descendants.filter isWatchAnchor = [] →
        item.descendants.filter hasIdAttribute = [] →
          ∀ dataHost : JSVal,
            (processItem h { item with dataHost := dataHost }).videoId = .null) := by
  have hy : ∀ dataHost : JSVal,
      yield1 h { item with dataHost := dataHost } = checkForVideoId h item.data := by
    intro dataHost
    simp only [yield1, strategy1, jsOr, hpresent, if_true]
  refine ⟨hy item.dataHost, fun dataHost => (hy dataHost).trans (hy item.dataHost).symm, ?_⟩
  intro hnone hdesc hanchors hattrs dataHost
  have hy2 : yield2 h { item with dataHost := dataHost } = .null :=
    yield2_no_data h _ hdesc
  have hy3 : yield3 h { item with dataHost := dataHost } = .null :=
    yield3_no_data h _ hdesc
  rw [processItem_videoId, resolveVideoId_eq_firstValid, hy dataHost, hnone, hy2, hy3]
  have hy4 : yield4 { item with dataHost := dataHost } = .null := by
    simp only [yield4, strategy4, truthy_null, Bool.not_false, if_true, hanchors, strategy4Loop]
  have hy5 : yield5 { item with dataHost := dataHost } = .null := by
    simp only [yield5, strategy5, truthy_null, Bool.not_false, if_true, hattrs, strategy5Loop]
  rw [hy4, hy5]
  rfl

theorem strategy1_ignores_dataHost_witness :
    truthy hostItem.data = true ∧
      isValidVideoId (checkForVideoId hostHeap hostItem.dataHost) = true ∧
      (processItem hostHeap hostItem).videoId = .null :=
  ⟨by decide, by decide,
    (strategy1_ignores_dataHost hostHeap hostItem (by decide)).2.2 (by decide) (by decide)
      (by decide) (by decide) hostItem.dataHost⟩

theorem mem_of_lookup_eq_some (key : JSString) (value : JSVal) :
    ∀ es : JSObject, es.lookup key = some value → (key, value) ∈ es := by
  intro es
  induction es with
  | nil =>
    intro hlook
    simp at hlook
  | cons e rest ih =>
    obtain ⟨k, v⟩ := e
    intro hlook
    rw [List.lookup_cons] at hlook
    cases hk : key == k with
    | true =>
      rw [hk] at hlook
      have hkey : key = k := by simpa using hk
      have hval : v = value := by simpa using hlook
      rw [hkey, hval]
      exact List.mem_cons_self _ _
    | false =>
      rw [hk] at hlook
      exact List.mem_cons_of_mem _ (ih hlook)

theorem fieldEdge_of_getProp (h : Heap) (r r' : Nat) (key : JSString)
    (hget : getProp h (.object r) key = .object r') : FieldEdge h r r' := by
  simp only [getProp] at hget
  cases hlook : (entries h r).lookup key with
  | none =>
    rw [hlook] at hget
    simp at hget
  | some value =>
    rw [hlook] at hget
    have hval : value = .object r' := by simpa using hget
    rw [hval] at hlook
    exact ⟨key, mem_of_lookup_eq_some key _ _ hlook⟩

theorem object_of_getProp_valid (h : Heap) (v : JSVal) (key : JSString)
    (hvalid : isValidVideoId (getProp h v key) = true) : ∃ r, v = .object r := by
  cases v with
  | object r => exact ⟨r, rfl⟩
  | _ => simp [getProp, isValidVideoId] at hvalid

theorem reachable_of_candidate (h : Heap) (r : Nat) (videoId : JSVal)
    (hfind : (directCandidates h (.object r)).find? isValidVideoId = some videoId) :
    ∃ r', Reachable h r r' ∧ hasValidVideoId h r' = true := by
  have hvalid : isValidVideoId videoId = true := by simpa using List.find?_some hfind
  have hmem := List.mem_of_find?_eq_some hfind
  simp only [directCandidates, readPath, List.mem_cons, List.mem_singleton,
    List.not_mem_nil, or_false] at hmem
  rcases hmem with rfl | rfl | rfl | rfl
  · exact ⟨r, Relation.ReflTransGen.refl, hvalid⟩
  · obtain ⟨r1, h1⟩ := object_of_getProp_valid h _ _ hvalid
    rw [h1] at hvalid
    exact ⟨r1, Relation.ReflTransGen.single (fieldEdge_of_getProp h r r1 _ h1), hvalid⟩
  · obtain ⟨r1, h1⟩ := object_of_getProp_valid h _ _ hvalid
    rw [h1] at hvalid
    exact ⟨r1, Relation.ReflTransGen.single (fieldEdge_of_getProp h r r1 _ h1), hvalid⟩
  · obtain ⟨r2, h2⟩ := object_of_getProp_valid h _ _ hvalid
    have hobj1 : ∃ r1, getProp h (.object r) (lit "navigationEndpoint") = .object r1 := by
      cases hn : getProp h (.object r) (lit "navigationEndpoint") with
      | object r1 => exact ⟨r1, rfl⟩
      | _ =>
        rw [hn] at h2
        simp [getProp] at h2
    obtain ⟨r1, h1⟩ := hobj1
    rw [h1] at h2
    rw [h1, h2] at hvalid
    exact ⟨r2, (Relation.ReflTransGen.single (fieldEdge_of_getProp h r r1 _ h1)).tail
      (fieldEdge_of_getProp h r1 r2 _ h2), hvalid⟩

theorem searchEntries_found (h : Heap) (f : JSVal → List Nat → Option (JSVal × List Nat))
    (hf : ∀ v visited result visited', f v visited = some (result, visited') →
      result ≠ .null →
        ∃ r0 r, v = .object r0 ∧ Reachable h r0 r ∧ hasValidVideoId h r = true)
    (es : JSObject) :
    ∀ visited result visited', searchEntries f es visited = some (result, visited') →
      result ≠ .null →
        ∃ key r0 r, (key, JSVal.object r0) ∈ es ∧ Reachable h r0 r ∧
          hasValidVideoId h r = true := by
  induction es with
  | nil =>
    intro visited result visited' hrun hne
    simp only [searchEntries, Option.some.injEq, Prod.mk.injEq] at hrun
    exact absurd hrun.1.symm hne
  | cons e rest ih =>
    obtain ⟨key, value⟩ := e
    intro visited result visited' hrun hne
    simp only [searchEntries] at hrun
    split at hrun
    · cases hcall : f value visited with
      | none => simp [hcall] at hrun
      | some p =>
        obtain ⟨res1, vis1⟩ := p
        simp only [hcall] at hrun
        split at hrun
        · simp only [Option.some.injEq, Prod.mk.injEq] at hrun
          obtain ⟨rfl, rfl⟩ := hrun
          obtain ⟨r0, r, hv, hreach, hval⟩ := hf value visited res1 vis1 hcall hne
          rw [hv]
          exact ⟨key, r0, r, List.mem_cons_self _ _, hreach, hval⟩
        · obtain ⟨k, r0, r, hmem, hreach, hval⟩ := ih vis1 result visited' hrun hne
          exact ⟨k, r0, r, List.mem_cons_of_mem _ hmem, hreach, hval⟩
    · obtain ⟨k, r0, r, hmem, hreach, hval⟩ := ih visited result visited' hrun hne
      exact ⟨k, r0, r, List.mem_cons_of_mem _ hmem, hreach, hval⟩

/-- A non-null result comes from an object reachable from the argument. -/
theorem checkForVideoIdAux_found (h : Heap) :
    ∀ fuel v visited result visited',
      checkForVideoIdAux h fuel v visited = some (result, visited') → result ≠ .null →
        ∃ r0 r, v = .object r0 ∧ Reachable h r0 r ∧ hasValidVideoId h r = true := by
  intro fuel
  induction fuel with
  | zero =>
    intro v visited result visited' hrun
    simp [checkForVideoIdAux] at hrun
  | succ fuel ih =>
    intro v visited result visited' hrun hne
    cases v with
    | object r0 =>
      cases hnew : visited.contains r0 with
      | true =>
        simp only [checkForVideoIdAux, hnew, if_true, Option.some.injEq, Prod.mk.injEq] at hrun
        exact absurd hrun.1.symm hne
      | false =>
        rw [checkForVideoIdAux_enter h fuel r0 visited hnew] at hrun
        split at hrun
        · rename_i videoId hfind
          obtain ⟨r, hreach, hval⟩ := reachable_of_candidate h r0 videoId hfind
          exact ⟨r0, r, rfl, hreach, hval⟩
        · obtain ⟨key, r1, r, hmem, hreach, hval⟩ :=
            searchEntries_found h _ ih (entries h r0) _ result visited' hrun hne
          exact ⟨r0, r, rfl, Relation.ReflTransGen.head ⟨key, hmem⟩ hreach, hval⟩
    | _ =>
      simp only [checkForVideoIdAux, Option.some.injEq, Prod.mk.injEq] at hrun
      exact absurd hrun.1.symm hne

theorem Settled.mono (h : Heap) (seen seen' : List Nat) (r : Nat)
    (hsub : ∀ x ∈ seen, x ∈ seen') (hset : Settled h seen r) : Settled h seen' r :=
  ⟨hset.1, fun r' hedge => hsub r' (hset.2 r' hedge)⟩

theorem searchEntries_settles (h : Heap) (f : JSVal → List Nat → Option (JSVal × List Nat))
    (hsound : SearchSound f)
    (hf : ∀ v visited visited', f v visited = some (.null, visited') →
      (∀ x ∈ visited, x ∈ visited') ∧ (∀ r, v = .object r → r ∈ visited') ∧
        (∀ x ∈ visited', x ∈ visited ∨ Settled h visited' x))
    (es : JSObject) :
    ∀ visited visited', searchEntries f es visited = some (.null, visited') →
      (∀ x ∈ visited, x ∈ visited') ∧
        (∀ key r, (key, JSVal.object r) ∈ es → r ∈ visited') ∧
        (∀ x ∈ visited', x ∈ visited ∨ Settled h visited' x) := by
  induction es with
  | nil =>
    intro visited visited' hrun
    simp only [searchEntries, Option.some.injEq, Prod.mk.injEq, true_and] at hrun
    subst hrun
    refine ⟨fun x hx => hx, ?_, fun x hx => Or.inl hx⟩
    intro key r hmem
    simp at hmem
  | cons e rest ih =>
    obtain ⟨key, value⟩ := e
    intro visited visited' hrun
    simp only [searchEntries] at hrun
    split at hrun
    · cases hcall : f value visited with
      | none => simp [hcall] at hrun
      | some p =>
        obtain ⟨res1, vis1⟩ := p
        simp only [hcall] at hrun
        split at hrun
        · rename_i htruthy
          simp only [Option.some.injEq, Prod.mk.injEq] at hrun
          rw [hrun.1] at htruthy
          exact absurd htruthy (by decide)
        · rename_i hfalsy
          have hnull : res1 = .null := by
            rcases (hsound value visited res1 vis1 hcall).1 with hn | hv
            · exact hn
            · exact absurd (isValidVideoId_truthy _ hv) hfalsy
          rw [hnull] at hcall
          obtain ⟨hsub1, hroot1, hnew1⟩ := hf value visited vis1 hcall
          obtain ⟨hsub2, hfields2, hnew2⟩ := ih vis1 visited' hrun
          refine ⟨fun x hx => hsub2 x (hsub1 x hx), ?_, ?_⟩
          · intro k r hmem
            rcases List.mem_cons.mp hmem with heq | hrest
            · have hval : value = .object r := by
                injection heq with _ hv
                exact hv.symm
              exact hsub2 r (hroot1 r hval)
            · exact hfields2 k r hrest
          · intro x hx
            rcases hnew2 x hx with hx1 | hset
            · rcases hnew1 x hx1 with hx0 | hset1
              · exact Or.inl hx0
              · exact Or.inr (hset1.mono h vis1 visited' x hsub2)
            · exact Or.inr hset
    · rename_i hnotobj
      obtain ⟨hsub, hfields, hnew⟩ := ih visited visited' hrun
      refine ⟨hsub, ?_, hnew⟩
      intro k r hmem
      rcases List.mem_cons.mp hmem with heq | hrest
      · have hval : value = .object r := by
          injection heq with _ hv
          exact hv.symm
        rw [hval] at hnotobj
        exact absurd rfl hnotobj
      · exact hfields k r hrest

/-- A null result means that the call has been through every object it could reach: each
object it entered has no valid `videoId` and all its field objects are in the visited set. -/
theorem checkForVideoIdAux_settles (h : Heap) :
    ∀ fuel v visited visited',
      checkForVideoIdAux h fuel v visited = some (.null, visited') →
        (∀ x ∈ visited, x ∈ visited') ∧ (∀ r, v = .object r → r ∈ visited') ∧
          (∀ x ∈ visited', x ∈ visited ∨ Settled h visited' x) := by
  intro fuel
  induction fuel with
  | zero =>
    intro v visited visited' hrun
    simp [checkForVideoIdAux] at hrun
  | succ fuel ih =>
    intro v visited visited' hrun
    cases v with
    | object r0 =>
      cases hnew : visited.contains r0 with
      | true =>
        simp only [checkForVideoIdAux, hnew, if_true, Option.some.injEq, Prod.mk.injEq,
          true_and] at hrun
        subst hrun
        have hmem : r0 ∈ visited := by simpa using hnew
        refine ⟨fun x hx => hx, ?_, fun x hx => Or.inl hx⟩
        intro r hr
        injection hr with hr
        rw [← hr]
        exact hmem
      | false =>
        rw [checkForVideoIdAux_enter h fuel r0 visited hnew] at hrun
        split at hrun
        · rename_i videoId hfind
          have hvalid : isValidVideoId videoId = true := by simpa using List.find?_some hfind
          simp only [Option.some.injEq, Prod.mk.injEq] at hrun
          rw [hrun.1] at hvalid
          exact absurd hvalid (by decide)
        · rename_i hfind
          obtain ⟨hsub, hfields, hnewset⟩ := searchEntries_settles h _
            (checkForVideoIdAux_sound h fuel) ih (entries h r0) (r0 :: visited) visited' hrun
          have hr0 : r0 ∈ visited' := hsub r0 (List.mem_cons_self _ _)
          have hown : hasValidVideoId h r0 = false := by
            have hall := List.find?_eq_none.mp hfind
            have hfirst := hall (getProp h (.object r0) (lit "videoId"))
              (by simp [directCandidates, readPath])
            simpa [hasValidVideoId] using hfirst
          refine ⟨fun x hx => hsub x (List.mem_cons_of_mem _ hx), ?_, ?_⟩
          · intro r hr
            injection hr with hr
            rw [← hr]
            exact hr0
          · intro x hx
            rcases hnewset x hx with hx0 | hset
            · rcases List.mem_cons.mp hx0 with heq | hold
              · rw [heq]
                exact Or.inr ⟨hown, fun r' hedge => by
                  obtain ⟨key, hmem⟩ := hedge
                  exact hfields key r' hmem⟩
              · exact Or.inl hold
            · exact Or.inr hset
    | _ =>
      simp only [checkForVideoIdAux, Option.some.injEq, Prod.mk.injEq, true_and] at hrun
      subst hrun
      refine ⟨fun x hx => hx, ?_, fun x hx => Or.inl hx⟩
      intro r hr
      cases hr

theorem checkForVideoId_null_of_none (h : Heap) (root : Nat)
    (hnull : checkForVideoId h (.object root) = .null) :
    ∀ r, Reachable h root r → hasValidVideoId h r = false := by
  obtain ⟨result, visited, hrun, heq⟩ := checkForVideoId_eq h (.object root)
  rw [hnull] at heq
  rw [← heq] at hrun
  obtain ⟨_, hroot, hset⟩ := checkForVideoIdAux_settles h _ _ [] visited hrun
  have hsettled : ∀ x ∈ visited, Settled h visited x := by
    intro x hx
    rcases hset x hx with hnil | hs
    · simp at hnil
    · exact hs
  have hin : ∀ r, Reachable h root r → r ∈ visited := by
    intro r hreach
    induction hreach with
    | refl => exact hroot root rfl
    | tail _ hedge ihr => exact (hsettled _ ihr).2 _ hedge
  intro r hreach
  exact (hsettled r (hin r hreach)).1

theorem checkForVideoId_found (h : Heap) (root : Nat)
    (hne : checkForVideoId h (.object root) ≠ .null) :
    ∃ r, Reachable h root r ∧ hasValidVideoId h r = true := by
  obtain ⟨result, visited, hrun, heq⟩ := checkForVideoId_eq h (.object root)
  rw [heq] at hne
  obtain ⟨r0, r, hv, hreach, hval⟩ := checkForVideoIdAux_found h _ _ [] result visited hrun hne
  injection hv with hv
  rw [hv]
  exact ⟨r, hreach, hval⟩

/-- C14. Started on an object with an empty visited set, the search returns null exactly when
no object reachable from the root through object-valued fields, the root included, has a valid
`videoId` field; so a reachable valid identifier is never hidden by the shared visited set:
the search then returns a valid identifier. -/
theorem checkForVideoId_null_iff (h : Heap) (root : Nat) :
    (checkForVideoId h (.object root) = .null ↔
        ∀ r, Reachable h root r → hasValidVideoId h r = false) ∧
      (∀ r, Reachable h root r → hasValidVideoId h r = true →
        isValidVideoId (checkForVideoId h (.object root)) = true) := by
  have hiff : checkForVideoId h (.object root) = .null ↔
      ∀ r, Reachable h root r → hasValidVideoId h r = false := by
    constructor
    · exact checkForVideoId_null_of_none h root
    · intro hall
      by_contra hne
      obtain ⟨r, hreach, hval⟩ := checkForVideoId_found h root hne
      rw [hall r hreach] at hval
      exact absurd hval (by decide)
  refine ⟨hiff, ?_⟩
  intro r hreach hval
  rcases checkForVideoId_null_or_valid h (.object root) with hnull | hvalid
  · rw [hiff.mp hnull r hreach] at hval
    exact absurd hval (by decide)
  · exact hvalid

theorem checkForVideoId_null_iff_witness :
    Reachable nestedEndpointHeap 0 3 ∧ hasValidVideoId nestedEndpointHeap 3 = true ∧
      isValidVideoId (checkForVideoId nestedEndpointHeap (.object 0)) = true :=
  have e01 : FieldEdge nestedEndpointHeap 0 1 := ⟨lit "a", by decide⟩
  have e12 : FieldEdge nestedEndpointHeap 1 2 := ⟨lit "navigationEndpoint", by decide⟩
  have e23 : FieldEdge nestedEndpointHeap 2 3 := ⟨lit "watchEndpoint", by decide⟩
  have hreach : Reachable nestedEndpointHeap 0 3 :=
    ((Relation.ReflTransGen.single e01).tail e12).tail e23
  ⟨hreach, by decide, (checkForVideoId_null_iff nestedEndpointHeap 0).2 3 hreach (by decide)⟩

theorem searchAttached_eq (h : Heap) (data dataHost : JSVal) :
    searchAttached h data dataHost =
      if truthy (jsOr data dataHost) then checkForVideoId h (jsOr data dataHost) else .null := by
  unfold searchAttached jsOr
  cases ha : truthy data <;> cases hb : truthy dataHost <;>
    simp [List.find?, ha, hb]

theorem searchAttached_nullOrValid (h : Heap) (data dataHost : JSVal) :
    NullOrValid (searchAttached h data dataHost) := by
  rw [searchAttached_eq]
  split
  · exact checkForVideoId_null_or_valid h _
  · exact Or.inl rfl

theorem yield1_eq (h : Heap) (item : QueueItem) : yield1 h item = ownDataId h item := by
  unfold yield1 strategy1 ownDataId
  rw [searchAttached_eq]

theorem head?_filter_eq_find? (p : Element → Bool) (els : List Element) :
    (els.filter p).head? = els.find? p := by
  induction els with
  | nil => rfl
  | cons el rest ih =>
    cases hp : p el <;> simp [List.filter_cons, List.find?_cons, hp, ih]

theorem yield2_eq (h : Heap) (item : QueueItem) : yield2 h item = playButtonId h item := by
  unfold yield2 strategy2 playButtonId queryPlayButton
  rw [head?_filter_eq_find?]
  simp only [truthy_null, Bool.not_false, if_true]
  split
  · rw [searchAttached_eq]
  · rfl

theorem strategy3Loop_of_truthy (h : Heap) (els : List Element) (v : JSVal)
    (hv : truthy v = true) : strategy3Loop h els v = v := by
  cases els with
  | nil => rfl
  | cons el rest => simp [strategy3Loop, hv]

theorem strategy3Loop_eq (h : Heap) (els : List Element) :
    strategy3Loop h els .null =
      firstValid (els.map (fun el => searchAttached h el.data el.dataHost)) := by
  induction els with
  | nil => rfl
  | cons el rest ih =>
    have hstep : strategy3Loop h (el :: rest) .null =
        strategy3Loop h rest (searchAttached h el.data el.dataHost) := by
      simp only [strategy3Loop, truthy_null, Bool.not_false, if_true, searchAttached_eq]
    rw [hstep, List.map_cons, firstValid]
    rcases searchAttached_nullOrValid h el.data el.dataHost with hnull | hvalid
    · rw [hnull, ih]
      rfl
    · rw [strategy3Loop_of_truthy h rest _ (isValidVideoId_truthy _ hvalid), hvalid]
      rfl

theorem yield3_eq (h : Heap) (item : QueueItem) :
    yield3 h item = descendantDataId h item := by
  unfold yield3 strategy3 descendantDataId
  simp only [truthy_null, Bool.not_false, if_true]
  exact strategy3Loop_eq h _

theorem strategy4Loop_eq (els : List Element) :
    strategy4Loop (els.filter isWatchAnchor) .null =
      firstValid
        ((((els.filter (fun el => el.tag == lit "a")).filterMap
          (fun el => el.attrs.lookup (lit "href"))).filter
            (fun href => includes href (lit "watch?v=") || includes href (lit "/watch/"))).map
          hrefToken) := by
  induction els with
  | nil => rfl
  | cons el rest ih =>
    cases htag : el.tag == lit "a" with
    | true =>
      cases hlook : el.attrs.lookup (lit "href") with
      | none =>
        have hsel : isWatchAnchor el = false := by simp [isWatchAnchor, hlook]
        simp only [List.filter_cons, hsel, htag, if_true, Bool.false_eq_true,
          if_false, List.filterMap_cons, hlook]
        exact ih
      | some href =>
        cases hinc : (includes href (lit "watch?v=") || includes href (lit "/watch/")) with
        | false =>
          have hsel : isWatchAnchor el = false := by
            simp only [isWatchAnchor, hlook, hinc, Bool.and_false]
          simp only [List.filter_cons, hsel, htag, if_true, Bool.false_eq_true,
            if_false, List.filterMap_cons, hlook, hinc]
          exact ih
        | true =>
          have hsel : isWatchAnchor el = true := by
            simp only [isWatchAnchor, hlook, hinc, htag, Bool.and_self]
          simp only [List.filter_cons, hsel, htag, if_true,
            List.filterMap_cons, hlook, hinc, List.map_cons, firstValid, strategy4Loop,
            hrefToken]
          cases hmatch : hrefMatch href with
          | none =>
            simp only [isValidVideoId, Bool.false_eq_true, if_false]
            exact ih
          | some token =>
            simp only
            cases hvalid : isValidVideoId (.string token) with
            | true => simp
            | false =>
              simp only [Bool.false_eq_true, if_false]
              exact ih
    | false =>
      have hsel : isWatchAnchor el = false := by
        simp only [isWatchAnchor, htag, Bool.false_and]
      simp only [List.filter_cons, hsel, htag, Bool.false_eq_true, if_false]
      exact ih

theorem yield4_eq (item : QueueItem) : yield4 item = anchorHrefId item := by
  unfold yield4 strategy4 anchorHrefId watchHrefs
  simp only [truthy_null, Bool.not_false, if_true]
  exact strategy4Loop_eq _

theorem yield5_eq_attributeId (item : QueueItem) : yield5 item = attributeId item := by
  rw [yield5_eq]
  rfl

theorem resolveVideoId_eq_spec (h : Heap) (item : QueueItem) :
    resolveVideoId h item =
      firstValid [ownDataId h item, playButtonId h item, descendantDataId h item,
        anchorHrefId item, attributeId item] := by
  rw [resolveVideoId_eq_firstValid, yield1_eq, yield2_eq, yield3_eq, yield4_eq,
    yield5_eq_attributeId]

/-- C4. The item's identifier is the first valid result, in the fixed order, of: 1 the search
of the item's own attached data, 2 the search of the play button's attached data, 3 the
searches of the descendants' attached data in document order, 4 the tokens captured in the
anchors' watch-link addresses, 5 the identifier attributes. Each block of the script computes
exactly the corresponding one, a valid identifier is left unchanged by every later block,
and when strategy 1 gives a valid identifier it is the item's identifier whatever the play
button, descendants, anchors and attributes are. -/
theorem processItem_strategy_order (h : Heap) (item : QueueItem) :
    (processItem h item).videoId =
        firstValid [ownDataId h item, playButtonId h item, descendantDataId h item,
          anchorHrefId item, attributeId item] ∧
      (strategy1 h item .null = ownDataId h item ∧
        strategy2 h item .null = playButtonId h item ∧
        strategy3 h item .null = descendantDataId h item ∧
        strategy4 item .null = anchorHrefId item ∧
        strategy5 item .null = attributeId item) ∧
      (∀ v, isValidVideoId v = true →
        strategy2 h item v = v ∧ strategy3 h item v = v ∧ strategy4 item v = v ∧
          strategy5 item v = v) ∧
      (isValidVideoId (ownDataId h item) = true →
        ∀ descendants : List Element,
          (processItem h { item with descendants := descendants }).videoId =
            ownDataId h item) := by
  refine ⟨?_, ⟨yield1_eq h item, yield2_eq h item, yield3_eq h item, yield4_eq item,
    yield5_eq_attributeId item⟩, ?_, ?_⟩
  · rw [processItem_videoId, resolveVideoId_eq_spec]
  · intro v hv
    exact ⟨strategy2_of_valid h item v hv, strategy3_of_valid h item v hv,
      strategy4_of_valid item v hv, strategy5_of_valid item v hv⟩
  · intro hvalid descendants
    rw [processItem_videoId, resolveVideoId_eq_spec]
    have hsame : ownDataId h { item with descendants := descendants } = ownDataId h item := rfl
    rw [firstValid, hsame, hvalid]
    rfl

theorem processItem_strategy_order_witness :
    isValidVideoId (ownDataId orderHeap orderItem) = true ∧
      playButtonId orderHeap orderItem = .string (lit "abcdefgh123") ∧
      (processItem orderHeap orderItem).videoId = .string (lit "dQw4w9WgXcQ") ∧
      (processItem orderHeap { orderItem with data := .undefined }).videoId =
        .string (lit "abcdefgh123") :=
  ⟨by decide, by decide,
    ((processItem_strategy_order orderHeap orderItem).2.2.2 (by decide)
      orderItem.descendants).trans (by decide),
    (processItem_strategy_order orderHeap { orderItem with data := .undefined }).1.trans
      (by decide)⟩

/-- C8, the claim as first worded, fails: `twoAnchorItem` has no attached data anywhere and has
an anchor with the address `/watch?v=abcdefgh123`, a valid identifier, yet its identifier is
`dQw4w9WgXcQ`, taken from the anchor that comes first. -/
theorem processItem_href_counterexample :
    isValidVideoId (.string (lit "abcdefgh123")) = true ∧
      truthy (jsOr twoAnchorItem.data twoAnchorItem.dataHost) = false ∧
      twoAnchorItem.descendants.all (fun el => !truthy (jsOr el.data el.dataHost)) = true ∧
      exampleAnchor ∈ twoAnchorItem.descendants ∧
      exampleAnchor.tag = lit "a" ∧
      exampleAnchor.attrs.lookup (lit "href") = some (lit "/watch?v=" ++ lit "abcdefgh123") ∧
      (processItem [] twoAnchorItem).videoId = .string (lit "dQw4w9WgXcQ") ∧
      (processItem [] twoAnchorItem).videoId ≠ .string (lit "abcdefgh123") := by
  decide

end QueueExtractor
